import Mathlib

set_option maxRecDepth 100000

/-!
Scan summaries and vulnerability records: `pkg/types/bigquery.go`.

A shallow embedding of the Go package `types`: the two record types
`ImageScanSummary` and `Vuln`, their identity derivation (`id`, `SetID`,
`sha256Sum`) and the extraction routine `ExtractVulns`.

Go strings are byte sequences, compared byte-wise; they are embedded as lists
of bytes, so that the order used by `sort.Slice` is the lexicographic order on
lists. The SHA-256 digest of the standard library is embedded as an executable
function following FIPS 180-4, with 32-bit words as natural numbers reduced
modulo `2 ^ 32`.
-/

/-- A Go `string`: an immutable sequence of bytes. -/
abbrev GoString := List (Fin 256)

/-- The bytes of a string literal of the source (its UTF-8 encoding). -/
def str (s : String) : GoString := s.toUTF8.data.toList.map (fun b => b.val)

/-! ## `crypto/sha256` -/

namespace sha256

/-- The round constants. -/
def K : List Nat := [
  0x428a2f98, 0x71374491, 0xb5c0fbcf, 0xe9b5dba5, 0x3956c25b, 0x59f111f1, 0x923f82a4, 0xab1c5ed5,
  0xd807aa98, 0x12835b01, 0x243185be, 0x550c7dc3, 0x72be5d74, 0x80deb1fe, 0x9bdc06a7, 0xc19bf174,
  0xe49b69c1, 0xefbe4786, 0x0fc19dc6, 0x240ca1cc, 0x2de92c6f, 0x4a7484aa, 0x5cb0a9dc, 0x76f988da,
  0x983e5152, 0xa831c66d, 0xb00327c8, 0xbf597fc7, 0xc6e00bf3, 0xd5a79147, 0x06ca6351, 0x14292967,
  0x27b70a85, 0x2e1b2138, 0x4d2c6dfc, 0x53380d13, 0x650a7354, 0x766a0abb, 0x81c2c92e, 0x92722c85,
  0xa2bfe8a1, 0xa81a664b, 0xc24b8b70, 0xc76c51a3, 0xd192e819, 0xd6990624, 0xf40e3585, 0x106aa070,
  0x19a4c116, 0x1e376c08, 0x2748774c, 0x34b0bcb5, 0x391c0cb3, 0x4ed8aa4a, 0x5b9cca4f, 0x682e6ff3,
  0x748f82ee, 0x78a5636f, 0x84c87814, 0x8cc70208, 0x90befffa, 0xa4506ceb, 0xbef9a3f7, 0xc67178f2]

/-- The eight working words of the digest. -/
structure State where
  a : Nat
  b : Nat
  c : Nat
  d : Nat
  e : Nat
  f : Nat
  g : Nat
  h : Nat
deriving DecidableEq

/-- The initial hash value. -/
def init : State :=
  ⟨0x6a09e667, 0xbb67ae85, 0x3c6ef372, 0xa54ff53a, 0x510e527f, 0x9b05688c, 0x1f83d9ab, 0x5be0cd19⟩

/-- Rotation of a 32-bit word to the right. -/
def rotr (x n : Nat) : Nat := (x >>> n ||| x <<< (32 - n)) % 2 ^ 32

/-- Bitwise complement of a 32-bit word. -/
def not32 (x : Nat) : Nat := 2 ^ 32 - 1 - x % 2 ^ 32

/-- The next word of the message schedule, from the words computed so far. -/
def schedule1 (w : List Nat) : Nat :=
  let v1 := w.getD (w.length - 2) 0
  let v2 := w.getD (w.length - 15) 0
  let t1 := rotr v1 17 ^^^ rotr v1 19 ^^^ v1 >>> 10
  let t2 := rotr v2 7 ^^^ rotr v2 18 ^^^ v2 >>> 3
  (t1 + w.getD (w.length - 7) 0 + t2 + w.getD (w.length - 16) 0) % 2 ^ 32

/-- The 64-word message schedule of a block given as 16 words. -/
def schedule (w : List Nat) : List Nat :=
  (List.range 48).foldl (fun w _ => w ++ [schedule1 w]) w

/-- One round of the compression function, on a round constant and a schedule word. -/
def round (s : State) (kw : Nat × Nat) : State :=
  let t1 := s.h + (rotr s.e 6 ^^^ rotr s.e 11 ^^^ rotr s.e 25) + (s.e &&& s.f ^^^ not32 s.e &&& s.g)
    + kw.1 + kw.2
  let t2 := (rotr s.a 2 ^^^ rotr s.a 13 ^^^ rotr s.a 22) + (s.a &&& s.b ^^^ s.a &&& s.c ^^^ s.b &&& s.c)
  ⟨(t1 + t2) % 2 ^ 32, s.a, s.b, s.c, (s.d + t1) % 2 ^ 32, s.e, s.f, s.g⟩

/-- A big-endian number from its bytes. -/
def be32 (p : List (Fin 256)) : Nat :=
  p.foldl (fun acc b => acc * 256 + b.val) 0

/-- The big-endian 32-bit words of a block. -/
def words : List (Fin 256) → List Nat
  | b0 :: b1 :: b2 :: b3 :: rest => be32 [b0, b1, b2, b3] :: words rest
  | _ => []

/-- The compression of one 64-byte block into the state. -/
def block (s : State) (p : List (Fin 256)) : State :=
  let t := (K.zip (schedule (words p))).foldl round s
  ⟨(s.a + t.a) % 2 ^ 32, (s.b + t.b) % 2 ^ 32, (s.c + t.c) % 2 ^ 32, (s.d + t.d) % 2 ^ 32,
   (s.e + t.e) % 2 ^ 32, (s.f + t.f) % 2 ^ 32, (s.g + t.g) % 2 ^ 32, (s.h + t.h) % 2 ^ 32⟩

/-- The low byte of a number. -/
def byteOf (n : Nat) : Fin 256 := ⟨n % 256, Nat.mod_lt n (by decide)⟩

/-- The four bytes of a 32-bit word, most significant first. -/
def put32 (w : Nat) : List (Fin 256) :=
  [byteOf (w >>> 24), byteOf (w >>> 16), byteOf (w >>> 8), byteOf w]

/-- The padding of a message of `len` bytes: `0x80`, zeros up to 56 modulo 64, and the
length in bits as a 64-bit big-endian number. -/
def pad (len : Nat) : List (Fin 256) :=
  let bits := (len * 8) % 2 ^ 64
  [(128 : Fin 256)] ++ List.replicate ((64 - (len + 9) % 64) % 64) (0 : Fin 256)
    ++ put32 (bits >>> 32) ++ put32 bits

/-- The compression of the successive 64-byte blocks of `p`; `fuel` bounds their number. -/
def blocks (fuel : Nat) (s : State) (p : List (Fin 256)) : State :=
  match fuel with
  | 0 => s
  | fuel + 1 => if p.length < 64 then s else blocks fuel (block s (p.take 64)) (p.drop 64)

/-- The 32-byte digest of `data`: what `h := sha256.New(); h.Write(data); h.Sum(nil)` returns. -/
def Sum (data : List (Fin 256)) : List (Fin 256) :=
  let p := data ++ pad data.length
  let s := blocks p.length init p
  put32 s.a ++ put32 s.b ++ put32 s.c ++ put32 s.d ++ put32 s.e ++ put32 s.f ++ put32 s.g ++ put32 s.h

end sha256

/-! ## `fmt`, `strings` -/

/-- The lowercase hexadecimal digit of a number below 16. -/
def hexDigit (n : Nat) : Fin 256 :=
  if n < 10 then sha256.byteOf (48 + n) else sha256.byteOf (87 + n)

/-- The verb `%x` of `fmt.Sprintf` on a byte slice: two lowercase hexadecimal digits per
byte, the most significant nibble first. -/
def sprintfHex (bs : List (Fin 256)) : GoString :=
  bs.flatMap (fun b => [hexDigit (b.val / 16), hexDigit (b.val % 16)])

/-- The function `strings.Join`. -/
def stringsJoin : List GoString → GoString → GoString
  | [], _ => []
  | [a], _ => a
  | a :: b :: rest, sep => a ++ sep ++ stringsJoin (b :: rest) sep

/-- The function `sha256Sum` of the source. -/
def sha256Sum (s : GoString) : GoString :=
  sprintfHex (sha256.Sum s)

/-! ## The records -/

/-- The record `ImageScanSummary`. -/
structure ImageScanSummary where
  ID : GoString
  Image : GoString
  Digest : GoString
  Scanner : GoString
  ScannerVersion : GoString
  ScannerDbVersion : GoString
  Time : GoString
  Created : GoString
  LowCveCount : Int
  MedCveCount : Int
  HighCveCount : Int
  CritCveCount : Int
  NegligibleCveCount : Int
  UnknownCveCount : Int
  TotCveCount : Int
  Success : Bool
  RawGrypeJSON : GoString
deriving DecidableEq

/-- The record `Vuln`; the field `Type` of the source is `Type_` here. -/
structure Vuln where
  ID : GoString
  ScanID : GoString
  Name : GoString
  Installed : GoString
  FixedIn : GoString
  Type_ : GoString
  Vulnerability : GoString
  Severity : GoString
  Time : GoString
deriving DecidableEq

/-- The method `(*ImageScanSummary).id`. -/
def ImageScanSummary.id (row : ImageScanSummary) : GoString :=
  stringsJoin [row.Image, row.Scanner, row.Time] (str "--")

/-- The method `(*ImageScanSummary).SetID`; the receiver after the call. -/
def ImageScanSummary.SetID (row : ImageScanSummary) : ImageScanSummary :=
  { row with ID := sha256Sum row.id }

/-- The method `(*Vuln).id`. -/
def Vuln.id (row : Vuln) : GoString :=
  stringsJoin [row.Name, row.Installed, row.Vulnerability, row.Type_, row.Time] (str "--")

/-- The method `(*Vuln).SetID`; the receiver after the call. -/
def Vuln.SetID (row : Vuln) : Vuln :=
  { row with ID := sha256Sum row.id }

/-! ## The decoded report -/

/-- Modelled from the spec: the type of `match.Vulnerability.Fix`, declared outside
`bigquery.go`; a "fix" object holding a list of version strings. -/
structure GrypeFix where
  Versions : List GoString
deriving DecidableEq

/-- Modelled from the spec: the type of `match.Vulnerability`, declared outside
`bigquery.go`; vulnerability identifier, severity label and the fix object. -/
structure GrypeVulnerability where
  ID : GoString
  Severity : GoString
  Fix : GrypeFix
deriving DecidableEq

/-- Modelled from the spec: the type of `match.Artifact`, declared outside `bigquery.go`;
name, installed version and artifact type. -/
structure GrypeArtifact where
  Name : GoString
  Version : GoString
  Type_ : GoString
deriving DecidableEq

/-- Modelled from the spec: the type of the elements of `output.Matches`, declared outside
`bigquery.go`; an artifact description and a vulnerability description. -/
structure GrypeMatch where
  Artifact : GrypeArtifact
  Vulnerability : GrypeVulnerability
deriving DecidableEq

/-- Modelled from the spec: the type `GrypeScanOutput`, declared outside `bigquery.go`;
a structured report whose schema is a list of matches. -/
structure GrypeScanOutput where
  Matches : List GrypeMatch
deriving DecidableEq

/-- The error value of `json.Unmarshal`. -/
structure JsonError where
  msg : String
deriving DecidableEq

/-- The decoder `json.Unmarshal([]byte(s), &output)` on a zero `GrypeScanOutput`: the error,
or the decoded report. The library function is a parameter of the embedding. -/
abbrev Unmarshal := GoString → Except JsonError GrypeScanOutput

/-! ## The runtime: map iteration and `sort.Slice` -/

/-- The value of a `map[string]*Vuln`: its entries, no key twice. The order of the list has
no meaning: iteration goes through `GoRuntime.rangeValues`. -/
abbrev VulnMap := List (GoString × Vuln)

/-- The assignment `m[k] = v`: a previous entry with key `k` is replaced. -/
def VulnMap.assign (m : VulnMap) (k : GoString) (v : Vuln) : VulnMap :=
  m.filter (fun e => decide (e.1 ≠ k)) ++ [(k, v)]

/-- The comparison functions on which `sort.Slice` delivers an ordered slice. -/
structure IsLess (less : Vuln → Vuln → Bool) : Prop where
  irrefl : ∀ a, less a a = false
  trans : ∀ a b c, less a b = true → less b c = true → less a c = true
  negTrans : ∀ a b c, less a b = false → less b c = false → less a c = false

/-- What the Go runtime leaves open: the order in which `range` visits a map, and the
permutation `sort.Slice` (which is not stable) produces. A call of `ExtractVulns` runs
under one such choice. -/
structure GoRuntime where
  /-- The values of a map in the order `for _, vuln := range m` visits them. -/
  rangeValues : VulnMap → List Vuln
  /-- Each entry is visited exactly once. -/
  rangeValues_perm : ∀ m, (rangeValues m).Perm (m.map Prod.snd)
  /-- The slice after `sort.Slice(x, less)`. -/
  sortSlice : (Vuln → Vuln → Bool) → List Vuln → List Vuln
  /-- The sorted slice holds the same elements. -/
  sortSlice_perm : ∀ less l, (sortSlice less l).Perm l
  /-- No element of the sorted slice is less than an earlier one. -/
  sortSlice_sorted : ∀ less l, IsLess less →
    (sortSlice less l).Pairwise (fun a b => less b a = false)

/-- One runtime: maps are visited in the order of their entry list, and slices are sorted
by insertion. -/
def GoRuntime.std : GoRuntime where
  rangeValues m := m.map Prod.snd
  rangeValues_perm _ := List.Perm.refl _
  sortSlice less l := List.insertionSort (fun a b => less b a = false) l
  sortSlice_perm less l := List.perm_insertionSort _ l
  sortSlice_sorted less l h := by
    haveI : IsTotal Vuln (fun a b => less b a = false) := ⟨fun a b => by
      cases hab : less a b
      · exact Or.inr rfl
      · cases hba : less b a
        · exact Or.inl rfl
        · have := h.trans a b a hab hba
          rw [h.irrefl a] at this
          cases this⟩
    haveI : IsTrans Vuln (fun a b => less b a = false) :=
      ⟨fun a b c hab hbc => h.negTrans c b a hbc hab⟩
    exact List.sorted_insertionSort _ l

/-- Another runtime: maps are visited in the reverse order of their entry list. -/
def GoRuntime.rev : GoRuntime where
  rangeValues m := (m.map Prod.snd).reverse
  rangeValues_perm _ := List.reverse_perm _
  sortSlice := GoRuntime.std.sortSlice
  sortSlice_perm := GoRuntime.std.sortSlice_perm
  sortSlice_sorted := GoRuntime.std.sortSlice_sorted

/-! ## `ExtractVulns` -/

/-- The outcome of `row.ExtractVulns()`: the receiver after the call and the two results.
In `vulns`, `none` is the nil slice; in `err`, `none` is the nil error. -/
structure ExtractResult where
  row : ImageScanSummary
  vulns : Option (List Vuln)
  err : Option JsonError
deriving DecidableEq

/-- The closure passed to `sort.Slice`, on the elements it compares. -/
def lessID (a b : Vuln) : Bool := decide (a.id < b.id)

/-- The record `v` built in the loop body for one match, after `v.SetID()`. -/
def candidate (row : ImageScanSummary) (m : GrypeMatch) : Vuln :=
  Vuln.SetID
    { ID := []
      ScanID := row.ID
      Name := m.Artifact.Name
      Installed := m.Artifact.Version
      FixedIn := stringsJoin m.Vulnerability.Fix.Versions (str ",")
      Type_ := m.Artifact.Type_
      Vulnerability := m.Vulnerability.ID
      Severity := m.Vulnerability.Severity
      Time := row.Time }

/-- The map `uniqueVulns` after the loop over `output.Matches`. -/
def uniqueVulns (row : ImageScanSummary) (ms : List GrypeMatch) : VulnMap :=
  ms.foldl (fun m mt => m.assign (candidate row mt).ID (candidate row mt)) []

/-- The method `(*ImageScanSummary).ExtractVulns`. -/
def ExtractVulns (unmarshal : Unmarshal) (rt : GoRuntime) (row : ImageScanSummary) :
    ExtractResult :=
  if row.RawGrypeJSON = [] then
    { row := row, vulns := some [], err := none }
  else
    let row := if row.ID = [] then row.SetID else row
    match unmarshal row.RawGrypeJSON with
    | .error err => { row := row, vulns := none, err := some err }
    | .ok output =>
      let vulns := (rt.rangeValues (uniqueVulns row output.Matches)).foldl
        (fun vulns vuln => vulns ++ [vuln]) []
      { row := row
        vulns := some (rt.sortSlice lessID vulns)
        err := none }

/-! ## Concrete inputs -/

/-- The JSON text of a report with the given matches. -/
def reportJSON (matches_ : List GoString) : GoString :=
  str "\x7b\"matches\":[" ++ stringsJoin matches_ (str ",") ++ str "]\x7d"

/-- The match for `libfoo` of the concrete scenario. -/
def libfoo : GrypeMatch :=
  { Artifact := { Name := str "libfoo", Version := str "1.2", Type_ := str "deb" }
    Vulnerability :=
      { ID := str "CVE-2024-0001", Severity := str "High", Fix := { Versions := [str "1.3"] } } }

/-- The JSON text of `libfoo`. -/
def libfooJSON : GoString :=
  str "\x7b\"artifact\":\x7b\"name\":\"libfoo\",\"version\":\"1.2\",\"type\":\"deb\"\x7d," ++
  str "\"vulnerability\":\x7b\"id\":\"CVE-2024-0001\",\"severity\":\"High\"," ++
  str "\"fix\":\x7b\"versions\":[\"1.3\"]\x7d\x7d\x7d"

/-- The match for `libbar` of the concrete scenario. -/
def libbar : GrypeMatch :=
  { Artifact := { Name := str "libbar", Version := str "2.0", Type_ := str "deb" }
    Vulnerability :=
      { ID := str "CVE-2024-0002", Severity := str "Low", Fix := { Versions := [] } } }

/-- The JSON text of `libbar`. -/
def libbarJSON : GoString :=
  str "\x7b\"artifact\":\x7b\"name\":\"libbar\",\"version\":\"2.0\",\"type\":\"deb\"\x7d," ++
  str "\"vulnerability\":\x7b\"id\":\"CVE-2024-0002\",\"severity\":\"Low\"," ++
  str "\"fix\":\x7b\"versions\":[]\x7d\x7d\x7d"

/-- A second finding of the vulnerability of `libfoo`, reported with another severity. -/
def libfooLow : GrypeMatch :=
  { libfoo with Vulnerability := { libfoo.Vulnerability with Severity := str "Low" } }

/-- The JSON text of `libfooLow`. -/
def libfooLowJSON : GoString :=
  str "\x7b\"artifact\":\x7b\"name\":\"libfoo\",\"version\":\"1.2\",\"type\":\"deb\"\x7d," ++
  str "\"vulnerability\":\x7b\"id\":\"CVE-2024-0001\",\"severity\":\"Low\"," ++
  str "\"fix\":\x7b\"versions\":[\"1.3\"]\x7d\x7d\x7d"

/-- A decoder on the payloads of the examples: it decodes the four reports built from the matches
above as `json.Unmarshal` does, and fails on every other text. -/
def exampleUnmarshal : Unmarshal := fun s =>
  if s = reportJSON [libfooJSON, libbarJSON] then .ok { Matches := [libfoo, libbar] }
  else if s = reportJSON [libbarJSON, libfooJSON] then .ok { Matches := [libbar, libfoo] }
  else if s = reportJSON [libfooJSON, libfooLowJSON] then .ok { Matches := [libfoo, libfooLow] }
  else if s = reportJSON [libfooLowJSON, libfooJSON] then .ok { Matches := [libfooLow, libfoo] }
  else .error { msg := "invalid character" }

/-- The summary of the concrete scenario, with the given payload; its identity is unset. -/
def scenario (payload : GoString) : ImageScanSummary :=
  { ID := []
    Image := str "app:1"
    Digest := str "sha256:0f5c"
    Scanner := str "scannerX"
    ScannerVersion := str "0.74.0"
    ScannerDbVersion := str "5"
    Time := str "2024-01-01T00:00:00Z"
    Created := str "2023-12-24T00:00:00Z"
    LowCveCount := 1
    MedCveCount := 0
    HighCveCount := 1
    CritCveCount := 0
    NegligibleCveCount := 0
    UnknownCveCount := 0
    TotCveCount := 2
    Success := true
    RawGrypeJSON := payload }

/-- The receiver of `ExtractVulns` after the lazy assignment of its identity (the
statement `if row.ID == "" { row.SetID() }`). -/
def lazyID (row : ImageScanSummary) : ImageScanSummary :=
  if row.ID = [] then row.SetID else row

/-- A field that the join cannot confuse with its neighbour: it neither contains the
delimiter `--` nor ends in `-`. -/
def delimiterSafe (f : GoString) : Prop :=
  ¬ (str "--" <:+: f) ∧ ¬ (str "-" <:+ f)

instance (f : GoString) : Decidable (delimiterSafe f) := by
  unfold delimiterSafe
  exact inferInstance

/-- A finding in the package `libfoo++`, whose name extends that of `libfoo`. -/
def libfooPlus : GrypeMatch :=
  { Artifact := { Name := str "libfoo++", Version := str "1.2", Type_ := str "deb" }
    Vulnerability :=
      { ID := str "CVE-2024-0003", Severity := str "Low", Fix := { Versions := [] } } }

/-- The JSON text of `libfooPlus`. -/
def libfooPlusJSON : GoString :=
  str "\x7b\"artifact\":\x7b\"name\":\"libfoo++\",\"version\":\"1.2\",\"type\":\"deb\"\x7d," ++
  str "\"vulnerability\":\x7b\"id\":\"CVE-2024-0003\",\"severity\":\"Low\"," ++
  str "\"fix\":\x7b\"versions\":[]\x7d\x7d\x7d"

/-- A finding whose package name contains the delimiter. -/
def dashName : GrypeMatch :=
  { Artifact := { Name := str "a--b", Version := str "c", Type_ := str "deb" }
    Vulnerability :=
      { ID := str "CVE-2024-0004", Severity := str "High", Fix := { Versions := [] } } }

/-- The JSON text of `dashName`. -/
def dashNameJSON : GoString :=
  str "\x7b\"artifact\":\x7b\"name\":\"a--b\",\"version\":\"c\",\"type\":\"deb\"\x7d," ++
  str "\"vulnerability\":\x7b\"id\":\"CVE-2024-0004\",\"severity\":\"High\"," ++
  str "\"fix\":\x7b\"versions\":[]\x7d\x7d\x7d"

/-- A finding whose version contains the delimiter. -/
def dashVersion : GrypeMatch :=
  { Artifact := { Name := str "a", Version := str "b--c", Type_ := str "deb" }
    Vulnerability :=
      { ID := str "CVE-2024-0004", Severity := str "Low", Fix := { Versions := [] } } }

/-- The JSON text of `dashVersion`. -/
def dashVersionJSON : GoString :=
  str "\x7b\"artifact\":\x7b\"name\":\"a\",\"version\":\"b--c\",\"type\":\"deb\"\x7d," ++
  str "\"vulnerability\":\x7b\"id\":\"CVE-2024-0004\",\"severity\":\"Low\"," ++
  str "\"fix\":\x7b\"versions\":[]\x7d\x7d\x7d"

/-- A decoder on the payloads of two more examples: it decodes the two reports built from
the matches above as `json.Unmarshal` does, and fails on every other text. -/
def delimiterUnmarshal : Unmarshal := fun s =>
  if s = reportJSON [libfooJSON, libfooPlusJSON] then .ok { Matches := [libfoo, libfooPlus] }
  else if s = reportJSON [dashNameJSON, dashVersionJSON] then
    .ok { Matches := [dashName, dashVersion] }
  else .error { msg := "invalid character" }

/-- A finding in the package `lib`, whose name is a prefix of that of `libfoo`. -/
def libShort : GrypeMatch :=
  { Artifact := { Name := str "lib", Version := str "9", Type_ := str "deb" }
    Vulnerability :=
      { ID := str "CVE-2024-0005", Severity := str "Low", Fix := { Versions := [] } } }

/-- The JSON text of `libShort`. -/
def libShortJSON : GoString :=
  str "\x7b\"artifact\":\x7b\"name\":\"lib\",\"version\":\"9\",\"type\":\"deb\"\x7d," ++
  str "\"vulnerability\":\x7b\"id\":\"CVE-2024-0005\",\"severity\":\"Low\"," ++
  str "\"fix\":\x7b\"versions\":[]\x7d\x7d\x7d"

/-- A finding in the package `libfoo-dev`, whose name extends that of `libfoo`. -/
def libfooDev : GrypeMatch :=
  { Artifact := { Name := str "libfoo-dev", Version := str "1.2", Type_ := str "deb" }
    Vulnerability :=
      { ID := str "CVE-2024-0006", Severity := str "Low", Fix := { Versions := [] } } }

/-- The JSON text of `libfooDev`. -/
def libfooDevJSON : GoString :=
  str "\x7b\"artifact\":\x7b\"name\":\"libfoo-dev\",\"version\":\"1.2\",\"type\":\"deb\"\x7d," ++
  str "\"vulnerability\":\x7b\"id\":\"CVE-2024-0006\",\"severity\":\"Low\"," ++
  str "\"fix\":\x7b\"versions\":[]\x7d\x7d\x7d"

/-- A decoder on the payload of the example of names that are prefixes of one another: it
decodes the report built from the matches above as `json.Unmarshal` does, and fails on
every other text. -/
def prefixUnmarshal : Unmarshal := fun s =>
  if s = reportJSON [libfooDevJSON, libfooJSON, libShortJSON] then
    .ok { Matches := [libfooDev, libfoo, libShort] }
  else .error { msg := "invalid character" }

/-! ## Lemmas -/

/-- The fuel of `sha256.Sum` is never used up: one more unit gives the same state. -/
theorem sha256.blocks_fuel (fuel : Nat) (s : sha256.State) (p : List (Fin 256))
    (h : p.length ≤ fuel) : sha256.blocks (fuel + 1) s p = sha256.blocks fuel s p := by
  induction fuel generalizing s p with
  | zero =>
    have hp : p.length < 64 := by omega
    simp [sha256.blocks, hp]
  | succ n ih =>
    by_cases hp : p.length < 64
    · simp [sha256.blocks, hp]
    · have hd : (p.drop 64).length ≤ n := by simp only [List.length_drop]; omega
      have h1 : sha256.blocks (n + 1 + 1) s p
          = sha256.blocks (n + 1) (sha256.block s (p.take 64)) (p.drop 64) := by
        simp [sha256.blocks, hp]
      have h2 : sha256.blocks (n + 1) s p
          = sha256.blocks n (sha256.block s (p.take 64)) (p.drop 64) := by
        simp [sha256.blocks, hp]
      rw [h1, h2]
      exact ih _ _ hd

theorem foldl_snoc_append {α : Type} (l init : List α) :
    l.foldl (fun acc v => acc ++ [v]) init = init ++ l := by
  induction l generalizing init with
  | nil => simp
  | cons a l ih => simp [ih]

theorem isLess_lessID : IsLess lessID where
  irrefl a := by simp [lessID]
  trans a b c h1 h2 := by
    simp only [lessID, decide_eq_true_eq] at *
    exact lt_trans h1 h2
  negTrans a b c h1 h2 := by
    simp only [lessID, decide_eq_false_iff_not, not_lt] at *
    exact le_trans h2 h1

theorem stringsJoin_three (a b c sep : GoString) :
    stringsJoin [a, b, c] sep = a ++ sep ++ b ++ sep ++ c := by
  simp [stringsJoin]

theorem stringsJoin_five (a b c d e sep : GoString) :
    stringsJoin [a, b, c, d, e] sep = a ++ sep ++ b ++ sep ++ c ++ sep ++ d ++ sep ++ e := by
  simp [stringsJoin]

theorem Vuln_id_eq (v : Vuln) :
    v.id = v.Name ++ str "--" ++ v.Installed ++ str "--" ++ v.Vulnerability ++ str "--"
      ++ v.Type_ ++ str "--" ++ v.Time := by
  simp [Vuln.id, stringsJoin]

theorem candidate_ID (row : ImageScanSummary) (m : GrypeMatch) :
    (candidate row m).ID = sha256Sum (candidate row m).id := rfl

theorem VulnMap.mem_assign {m : VulnMap} {k : GoString} {v : Vuln} {e : GoString × Vuln} :
    e ∈ m.assign k v ↔ (e ∈ m ∧ e.1 ≠ k) ∨ e = (k, v) := by
  simp [VulnMap.assign, List.mem_filter]

theorem VulnMap.nodup_assign {m : VulnMap} (k : GoString) (v : Vuln)
    (h : (m.map Prod.fst).Nodup) : ((m.assign k v).map Prod.fst).Nodup := by
  unfold VulnMap.assign
  rw [List.map_append, List.nodup_append]
  refine ⟨(List.filter_sublist m).map Prod.fst |>.nodup h, by simp, ?_⟩
  intro a ha hb
  simp only [List.map_cons, List.map_nil, List.mem_singleton] at hb
  simp only [List.mem_map, List.mem_filter] at ha
  obtain ⟨e, ⟨_, he⟩, rfl⟩ := ha
  simp at he
  exact he hb

theorem uniqueVulns_snoc (row : ImageScanSummary) (ms : List GrypeMatch) (x : GrypeMatch) :
    uniqueVulns row (ms ++ [x]) =
      (uniqueVulns row ms).assign (candidate row x).ID (candidate row x) := by
  simp [uniqueVulns, List.foldl_append]

theorem uniqueVulns_nodupKeys (row : ImageScanSummary) (ms : List GrypeMatch) :
    ((uniqueVulns row ms).map Prod.fst).Nodup := by
  induction ms using List.reverseRecOn with
  | nil => simp [uniqueVulns]
  | append_singleton l a ih => rw [uniqueVulns_snoc]; exact VulnMap.nodup_assign _ _ ih

theorem uniqueVulns_mem (row : ImageScanSummary) (ms : List GrypeMatch) (e : GoString × Vuln)
    (h : e ∈ uniqueVulns row ms) :
    ∃ m ∈ ms, e = ((candidate row m).ID, candidate row m) := by
  induction ms using List.reverseRecOn with
  | nil => simp [uniqueVulns] at h
  | append_singleton l a ih =>
    rw [uniqueVulns_snoc, VulnMap.mem_assign] at h
    rcases h with ⟨h, _⟩ | h
    · obtain ⟨m, hm, rfl⟩ := ih h
      exact ⟨m, by simp [hm], rfl⟩
    · exact ⟨a, by simp, h⟩

theorem uniqueVulns_keys (row : ImageScanSummary) (ms : List GrypeMatch) (k : GoString) :
    k ∈ (uniqueVulns row ms).map Prod.fst ↔ k ∈ ms.map (fun m => (candidate row m).ID) := by
  induction ms using List.reverseRecOn with
  | nil => simp [uniqueVulns]
  | append_singleton l a ih =>
    rw [uniqueVulns_snoc]
    simp only [List.mem_map, VulnMap.mem_assign, List.mem_append, List.mem_singleton] at ih ⊢
    constructor
    · rintro ⟨e, (⟨he, _⟩ | rfl), rfl⟩
      · obtain ⟨m, hm, h⟩ := ih.1 ⟨e, he, rfl⟩
        exact ⟨m, Or.inl hm, h⟩
      · exact ⟨a, Or.inr rfl, rfl⟩
    · rintro ⟨m, (hm | rfl), rfl⟩
      · by_cases hk : (candidate row m).ID = (candidate row a).ID
        · exact ⟨_, Or.inr rfl, hk.symm⟩
        · obtain ⟨e, he, h⟩ := ih.2 ⟨m, hm, rfl⟩
          exact ⟨e, Or.inl ⟨he, by rw [h]; exact hk⟩, h⟩
      · exact ⟨_, Or.inr rfl, rfl⟩

theorem lazyID_payload (row : ImageScanSummary) : (lazyID row).RawGrypeJSON = row.RawGrypeJSON := by
  unfold lazyID; split <;> rfl

theorem lazyID_time (row : ImageScanSummary) : (lazyID row).Time = row.Time := by
  unfold lazyID; split <;> rfl

theorem ExtractVulns_ok (u : Unmarshal) (rt : GoRuntime) (row : ImageScanSummary)
    (out : GrypeScanOutput) (hne : row.RawGrypeJSON ≠ []) (hok : u row.RawGrypeJSON = .ok out) :
    ExtractVulns u rt row =
      { row := lazyID row
        vulns := some (rt.sortSlice lessID (rt.rangeValues (uniqueVulns (lazyID row) out.Matches)))
        err := none } := by
  have hok2 : u (lazyID row).RawGrypeJSON = .ok out := by rw [lazyID_payload]; exact hok
  unfold ExtractVulns
  rw [if_neg hne]
  simp only [foldl_snoc_append, List.nil_append]
  change (match u (lazyID row).RawGrypeJSON with
    | .error err => ({ row := lazyID row, vulns := none, err := some err } : ExtractResult)
    | .ok output => _) = _
  rw [hok2]
  rfl

theorem ExtractVulns_error (u : Unmarshal) (rt : GoRuntime) (row : ImageScanSummary)
    (e : JsonError) (hne : row.RawGrypeJSON ≠ []) (herr : u row.RawGrypeJSON = .error e) :
    ExtractVulns u rt row = { row := lazyID row, vulns := none, err := some e } := by
  have herr2 : u (lazyID row).RawGrypeJSON = .error e := by rw [lazyID_payload]; exact herr
  unfold ExtractVulns
  rw [if_neg hne]
  change (match u (lazyID row).RawGrypeJSON with
    | .error err => ({ row := lazyID row, vulns := none, err := some err } : ExtractResult)
    | .ok output => _) = _
  rw [herr2]

theorem uniqueVulns_nodup_id (row : ImageScanSummary) (ms : List GrypeMatch) :
    (((uniqueVulns row ms).map Prod.snd).map Vuln.id).Nodup := by
  have hk := uniqueVulns_nodupKeys row ms
  have : (uniqueVulns row ms).map Prod.fst
      = (((uniqueVulns row ms).map Prod.snd).map Vuln.id).map sha256Sum := by
    rw [List.map_map, List.map_map]
    apply List.map_congr_left
    intro e he
    obtain ⟨m, _, rfl⟩ := uniqueVulns_mem row ms e he
    rfl
  rw [this] at hk
  exact hk.of_map _

theorem sortSlice_strict (rt : GoRuntime) (l : List Vuln) (h : (l.map Vuln.id).Nodup) :
    (rt.sortSlice lessID l).Pairwise (fun a b => a.id < b.id) := by
  have hs := rt.sortSlice_sorted lessID l isLess_lessID
  have hn : ((rt.sortSlice lessID l).map Vuln.id).Nodup :=
    ((rt.sortSlice_perm lessID l).map Vuln.id).nodup_iff.2 h
  rw [List.Nodup, List.pairwise_map] at hn
  refine (hs.and hn).imp ?_
  rintro a b ⟨h1, h2⟩
  simp only [lessID, decide_eq_false_iff_not, not_lt] at h1
  exact lt_of_le_of_ne h1 h2

theorem eq_of_perm_of_strict {l₁ l₂ : List Vuln} (hp : l₁.Perm l₂)
    (h₁ : l₁.Pairwise (fun a b => a.id < b.id)) (h₂ : l₂.Pairwise (fun a b => a.id < b.id)) :
    l₁ = l₂ := by
  haveI : IsAntisymm Vuln (fun a b => a.id < b.id) :=
    ⟨fun a b h1 h2 => absurd (lt_trans h1 h2) (lt_irrefl _)⟩
  exact List.eq_of_perm_of_sorted hp h₁ h₂

/-- The returned list on the success path: a permutation of the values of `uniqueVulns`,
strictly ascending in the identity-input string. -/
theorem sorted_values (rt : GoRuntime) (row : ImageScanSummary) (ms : List GrypeMatch) :
    (rt.sortSlice lessID (rt.rangeValues (uniqueVulns row ms))).Perm
        ((uniqueVulns row ms).map Prod.snd)
      ∧ (rt.sortSlice lessID (rt.rangeValues (uniqueVulns row ms))).Pairwise
        (fun a b => a.id < b.id) := by
  have hp := rt.rangeValues_perm (uniqueVulns row ms)
  refine ⟨(rt.sortSlice_perm _ _).trans hp, sortSlice_strict rt _ ?_⟩
  exact (hp.map Vuln.id).nodup_iff.2 (uniqueVulns_nodup_id row ms)

theorem values_ID_eq_keys (row : ImageScanSummary) (ms : List GrypeMatch) :
    ((uniqueVulns row ms).map Prod.snd).map Vuln.ID = (uniqueVulns row ms).map Prod.fst := by
  rw [List.map_map]
  apply List.map_congr_left
  intro e he
  obtain ⟨m, _, rfl⟩ := uniqueVulns_mem row ms e he
  rfl

/-! ## Test vectors of the digest -/

theorem sha256Sum_empty :
    sha256Sum [] = str "e3b0c44298fc1c149afbf4c8996fb92427ae41e4649b934ca495991b7852b855" := by
  decide

theorem sha256Sum_abc :
    sha256Sum (str "abc")
      = str "ba7816bf8f01cfea414140de5dae2223b00361a396177a9cb410ff61f20015ad" := by
  decide

theorem sha256Sum_two_blocks :
    sha256Sum (str "abcdbcdecdefdefgefghfghighijhijkijkljklmklmnlmnomnopnopq")
      = str "248d6a61d20638b8e5c026930c3e6039a33ce45964ff2167f6ecedd419db06c1" := by
  decide

/-! ## Identity derivation -/

/-- C1: after `SetID` the `ID` of a summary is the hexadecimal SHA-256 digest of
`Image ++ "--" ++ Scanner ++ "--" ++ Time`; no other field of the record enters it (a
record `other` given these three fields gets the same `ID`), and a second `SetID` changes
nothing. -/
theorem ImageScanSummary_SetID_spec (row other : ImageScanSummary) :
    row.SetID.ID
        = sprintfHex (sha256.Sum (row.Image ++ str "--" ++ row.Scanner ++ str "--" ++ row.Time))
      ∧ ({ other with Image := row.Image, Scanner := row.Scanner, Time := row.Time }).SetID.ID
        = row.SetID.ID
      ∧ row.SetID.SetID = row.SetID := by
  refine ⟨?_, rfl, rfl⟩
  simp [ImageScanSummary.SetID, ImageScanSummary.id, sha256Sum, stringsJoin]

/-- C2: after `SetID` the `ID` of a `Vuln` is the hexadecimal SHA-256 digest of
`Name ++ "--" ++ Installed ++ "--" ++ Vulnerability ++ "--" ++ Type ++ "--" ++ Time`, the
five fields in this order; `ScanID`, `FixedIn` and `Severity` (and the previous `ID`) do
not enter it. -/
theorem Vuln_SetID_spec (row other : Vuln) :
    row.SetID.ID
        = sprintfHex (sha256.Sum (row.Name ++ str "--" ++ row.Installed ++ str "--"
            ++ row.Vulnerability ++ str "--" ++ row.Type_ ++ str "--" ++ row.Time))
      ∧ ({ row with ID := other.ID, ScanID := other.ScanID, FixedIn := other.FixedIn,
                    Severity := other.Severity }).SetID.ID = row.SetID.ID := by
  refine ⟨?_, rfl⟩
  simp [Vuln.SetID, Vuln.id, sha256Sum, stringsJoin]

/-! ## Extraction -/

/-- C3: on a summary whose `RawGrypeJSON` is empty, `ExtractVulns` returns an empty
non-nil list and the nil error, whatever the decoder, the runtime and the other fields. -/
theorem ExtractVulns_empty_payload (u : Unmarshal) (rt : GoRuntime) (row : ImageScanSummary)
    (h : row.RawGrypeJSON = []) :
    (ExtractVulns u rt row).vulns = some [] ∧ (ExtractVulns u rt row).err = none := by
  simp [ExtractVulns, h]

/-- Witness of C3: the scenario's summary with an empty payload. -/
theorem ExtractVulns_empty_payload_witness :
    (scenario []).RawGrypeJSON = []
      ∧ (ExtractVulns exampleUnmarshal GoRuntime.std (scenario [])).vulns = some []
      ∧ (ExtractVulns exampleUnmarshal GoRuntime.std (scenario [])).err = none :=
  ⟨rfl, ExtractVulns_empty_payload exampleUnmarshal GoRuntime.std (scenario []) rfl⟩

/-- C4: when the non-empty payload fails to decode, `ExtractVulns` returns the decoder's
error and the nil list; and whenever `ExtractVulns` returns an error, the payload is
non-empty and that error is the decoder's. -/
theorem ExtractVulns_error_iff (u : Unmarshal) (rt : GoRuntime) (row : ImageScanSummary)
    (e : JsonError) :
    (row.RawGrypeJSON ≠ [] → u row.RawGrypeJSON = .error e →
        (ExtractVulns u rt row).vulns = none ∧ (ExtractVulns u rt row).err = some e)
      ∧ ((ExtractVulns u rt row).err = some e →
        row.RawGrypeJSON ≠ [] ∧ u row.RawGrypeJSON = .error e) := by
  constructor
  · intro hne herr
    rw [ExtractVulns_error u rt row e hne herr]
    exact ⟨rfl, rfl⟩
  · intro h
    by_cases hne : row.RawGrypeJSON = []
    · rw [(ExtractVulns_empty_payload u rt row hne).2] at h
      cases h
    · refine ⟨hne, ?_⟩
      cases hu : u row.RawGrypeJSON with
      | error e' =>
        rw [ExtractVulns_error u rt row e' hne hu] at h
        cases h
        rfl
      | ok out =>
        rw [ExtractVulns_ok u rt row out hne hu] at h
        cases h

/-- Witness of C4: the scenario's summary with the payload `x`, which is not a report. -/
theorem ExtractVulns_error_iff_witness :
    (scenario (str "x")).RawGrypeJSON ≠ []
      ∧ exampleUnmarshal (scenario (str "x")).RawGrypeJSON = .error { msg := "invalid character" }
      ∧ (ExtractVulns exampleUnmarshal GoRuntime.std (scenario (str "x"))).vulns = none
      ∧ (ExtractVulns exampleUnmarshal GoRuntime.std (scenario (str "x"))).err
        = some { msg := "invalid character" } :=
  ⟨by decide, by rfl,
    (ExtractVulns_error_iff exampleUnmarshal GoRuntime.std (scenario (str "x"))
      { msg := "invalid character" }).1 (by decide) (by rfl)⟩

theorem candidate_lazyID (row : ImageScanSummary) (m : GrypeMatch) :
    candidate (lazyID row) m = { candidate row m with ScanID := (lazyID row).ID } := by
  unfold lazyID; split <;> rfl

theorem candidate_lazyID_ID (row : ImageScanSummary) (m : GrypeMatch) :
    (candidate (lazyID row) m).ID = (candidate row m).ID := by
  rw [candidate_lazyID]

/-- C5: on the success path the returned records have pairwise distinct `ID`s, the `ID`s
returned are exactly the identities of the records built from the matches, so the length of
the list is the number of distinct identities; a report of two matches with the same name,
version, vulnerability id and type yields one record. -/
theorem ExtractVulns_dedup (u : Unmarshal) (rt : GoRuntime) (row : ImageScanSummary)
    (out : GrypeScanOutput) (hne : row.RawGrypeJSON ≠ []) (hok : u row.RawGrypeJSON = .ok out) :
    ∃ vulns, (ExtractVulns u rt row).vulns = some vulns
      ∧ (vulns.map Vuln.ID).Nodup
      ∧ (∀ k, k ∈ vulns.map Vuln.ID ↔ k ∈ out.Matches.map (fun m => (candidate row m).ID))
      ∧ vulns.length = (out.Matches.map (fun m => (candidate row m).ID)).toFinset.card
      ∧ (∀ m₁ m₂, out.Matches = [m₁, m₂] → m₁.Artifact.Name = m₂.Artifact.Name →
          m₁.Artifact.Version = m₂.Artifact.Version → m₁.Vulnerability.ID = m₂.Vulnerability.ID →
          m₁.Artifact.Type_ = m₂.Artifact.Type_ → vulns.length = 1) := by
  rw [ExtractVulns_ok u rt row out hne hok]
  refine ⟨_, rfl, ?_⟩
  obtain ⟨hp, -⟩ := sorted_values rt (lazyID row) out.Matches
  have hids := hp.map Vuln.ID
  rw [values_ID_eq_keys] at hids
  have hnd := uniqueVulns_nodupKeys (lazyID row) out.Matches
  have hmem : ∀ k, k ∈ (rt.sortSlice lessID (rt.rangeValues
      (uniqueVulns (lazyID row) out.Matches))).map Vuln.ID
      ↔ k ∈ out.Matches.map (fun m => (candidate row m).ID) := by
    intro k
    rw [hids.mem_iff, uniqueVulns_keys]
    simp only [candidate_lazyID_ID]
  have hlen : (rt.sortSlice lessID (rt.rangeValues (uniqueVulns (lazyID row) out.Matches))).length
      = (out.Matches.map (fun m => (candidate row m).ID)).toFinset.card := by
    rw [← List.length_map _ Vuln.ID, ← List.toFinset_card_of_nodup (hids.nodup_iff.2 hnd)]
    congr 1
    ext k
    simp only [List.mem_toFinset]
    exact hmem k
  refine ⟨hids.nodup_iff.2 hnd, hmem, hlen, ?_⟩
  intro m₁ m₂ hms h1 h2 h3 h4
  rw [hlen, hms]
  have : (candidate row m₁).ID = (candidate row m₂).ID := by
    simp [candidate, Vuln.SetID, Vuln.id, h1, h2, h3, h4]
  simp [this]

/-- Witness of C5: the report with the finding of `libfoo` twice yields one record. -/
theorem ExtractVulns_dedup_witness :
    (scenario (reportJSON [libfooJSON, libfooLowJSON])).RawGrypeJSON ≠ []
      ∧ exampleUnmarshal (scenario (reportJSON [libfooJSON, libfooLowJSON])).RawGrypeJSON
        = .ok { Matches := [libfoo, libfooLow] }
      ∧ ∃ vulns, (ExtractVulns exampleUnmarshal GoRuntime.std
          (scenario (reportJSON [libfooJSON, libfooLowJSON]))).vulns = some vulns
        ∧ vulns.length = 1 := by
  refine ⟨by decide, rfl, ?_⟩
  obtain ⟨vulns, hv, -, -, -, h⟩ := ExtractVulns_dedup exampleUnmarshal GoRuntime.std
    (scenario (reportJSON [libfooJSON, libfooLowJSON])) { Matches := [libfoo, libfooLow] }
    (by decide) rfl
  exact ⟨vulns, hv, h libfoo libfooLow rfl rfl rfl rfl rfl⟩

/-- C6: on the success path the returned list is strictly ascending in the byte-wise
lexicographic order of the identity-input string `id` of its records, which is
`Name ++ "--" ++ Installed ++ "--" ++ Vulnerability ++ "--" ++ Type ++ "--" ++ Time` and not
the hash in `ID`; no two returned records have the same sort key. -/
theorem ExtractVulns_sorted (u : Unmarshal) (rt : GoRuntime) (row : ImageScanSummary)
    (out : GrypeScanOutput) (hne : row.RawGrypeJSON ≠ []) (hok : u row.RawGrypeJSON = .ok out) :
    ∃ vulns, (ExtractVulns u rt row).vulns = some vulns
      ∧ vulns.Pairwise (fun a b =>
          a.Name ++ str "--" ++ a.Installed ++ str "--" ++ a.Vulnerability ++ str "--"
              ++ a.Type_ ++ str "--" ++ a.Time
            < b.Name ++ str "--" ++ b.Installed ++ str "--" ++ b.Vulnerability ++ str "--"
              ++ b.Type_ ++ str "--" ++ b.Time)
      ∧ (vulns.map (fun a => a.Name ++ str "--" ++ a.Installed ++ str "--" ++ a.Vulnerability
          ++ str "--" ++ a.Type_ ++ str "--" ++ a.Time)).Nodup := by
  rw [ExtractVulns_ok u rt row out hne hok]
  refine ⟨_, rfl, ?_⟩
  obtain ⟨-, hs⟩ := sorted_values rt (lazyID row) out.Matches
  simp only [Vuln_id_eq] at hs
  refine ⟨hs, ?_⟩
  rw [List.Nodup, List.pairwise_map]
  exact hs.imp (fun h => ne_of_lt h)

/-- Witness of C6: in the scenario `libbar` comes before `libfoo`, under both runtimes. -/
theorem ExtractVulns_sorted_witness :
    (scenario (reportJSON [libfooJSON, libbarJSON])).RawGrypeJSON ≠ []
      ∧ exampleUnmarshal (scenario (reportJSON [libfooJSON, libbarJSON])).RawGrypeJSON
        = .ok { Matches := [libfoo, libbar] }
      ∧ ∃ vulns, (ExtractVulns exampleUnmarshal GoRuntime.rev
          (scenario (reportJSON [libfooJSON, libbarJSON]))).vulns = some vulns
        ∧ vulns.map Vuln.Name = [str "libbar", str "libfoo"]
        ∧ vulns.Pairwise (fun a b =>
          a.Name ++ str "--" ++ a.Installed ++ str "--" ++ a.Vulnerability ++ str "--"
              ++ a.Type_ ++ str "--" ++ a.Time
            < b.Name ++ str "--" ++ b.Installed ++ str "--" ++ b.Vulnerability ++ str "--"
              ++ b.Type_ ++ str "--" ++ b.Time) := by
  refine ⟨by decide, rfl, ?_⟩
  obtain ⟨vulns, hv, h, -⟩ := ExtractVulns_sorted exampleUnmarshal GoRuntime.rev
    (scenario (reportJSON [libfooJSON, libbarJSON])) { Matches := [libfoo, libbar] }
    (by decide) rfl
  refine ⟨vulns, hv, ?_, h⟩
  have hd : ((ExtractVulns exampleUnmarshal GoRuntime.rev
      (scenario (reportJSON [libfooJSON, libbarJSON]))).vulns.map (List.map Vuln.Name))
      = some [str "libbar", str "libfoo"] := by decide
  rw [hv] at hd
  exact Option.some.inj hd

/-- C7: on the success path every returned record is the record built from some match of
the decoded report: name, version, type, vulnerability id and severity are copied,
`FixedIn` is the fix versions joined with "," (empty when there is none), `Time` is the
summary's, and `ID` is the Vuln identity of these fields. -/
theorem ExtractVulns_records (u : Unmarshal) (rt : GoRuntime) (row : ImageScanSummary)
    (out : GrypeScanOutput) (hne : row.RawGrypeJSON ≠ []) (hok : u row.RawGrypeJSON = .ok out) :
    ∃ vulns, (ExtractVulns u rt row).vulns = some vulns
      ∧ ∀ r ∈ vulns, ∃ m ∈ out.Matches,
          r.Name = m.Artifact.Name
        ∧ r.Installed = m.Artifact.Version
        ∧ r.Type_ = m.Artifact.Type_
        ∧ r.Vulnerability = m.Vulnerability.ID
        ∧ r.Severity = m.Vulnerability.Severity
        ∧ r.FixedIn = stringsJoin m.Vulnerability.Fix.Versions (str ",")
        ∧ (m.Vulnerability.Fix.Versions = [] → r.FixedIn = [])
        ∧ r.Time = row.Time
        ∧ r.ID = sha256Sum (m.Artifact.Name ++ str "--" ++ m.Artifact.Version ++ str "--"
            ++ m.Vulnerability.ID ++ str "--" ++ m.Artifact.Type_ ++ str "--" ++ row.Time) := by
  rw [ExtractVulns_ok u rt row out hne hok]
  refine ⟨_, rfl, ?_⟩
  intro r hr
  obtain ⟨hp, -⟩ := sorted_values rt (lazyID row) out.Matches
  obtain ⟨e, he, rfl⟩ := List.mem_map.1 (hp.mem_iff.1 hr)
  obtain ⟨m, hm, rfl⟩ := uniqueVulns_mem _ _ e he
  refine ⟨m, hm, rfl, rfl, rfl, rfl, rfl, rfl, ?_, lazyID_time row, ?_⟩
  · intro h
    show stringsJoin m.Vulnerability.Fix.Versions (str ",") = []
    rw [h]
    rfl
  · show sha256Sum (candidate (lazyID row) m).id = _
    rw [Vuln_id_eq]
    show sha256Sum (_ ++ (lazyID row).Time) = _
    rw [lazyID_time]
    rfl

/-- Witness of C7: the scenario gives `FixedIn = "1.3"` for `libfoo` and `FixedIn = ""` for
`libbar`. -/
theorem ExtractVulns_records_witness :
    (scenario (reportJSON [libfooJSON, libbarJSON])).RawGrypeJSON ≠ []
      ∧ exampleUnmarshal (scenario (reportJSON [libfooJSON, libbarJSON])).RawGrypeJSON
        = .ok { Matches := [libfoo, libbar] }
      ∧ (∃ vulns, (ExtractVulns exampleUnmarshal GoRuntime.std
          (scenario (reportJSON [libfooJSON, libbarJSON]))).vulns = some vulns
        ∧ ∀ r ∈ vulns, ∃ m ∈ [libfoo, libbar],
            r.Name = m.Artifact.Name
          ∧ r.Severity = m.Vulnerability.Severity
          ∧ r.FixedIn = stringsJoin m.Vulnerability.Fix.Versions (str ","))
      ∧ (ExtractVulns exampleUnmarshal GoRuntime.std
          (scenario (reportJSON [libfooJSON, libbarJSON]))).vulns.map
            (List.map (fun r => (r.Name, r.FixedIn)))
        = some [(str "libbar", str ""), (str "libfoo", str "1.3")] := by
  refine ⟨by decide, rfl, ?_, by decide⟩
  obtain ⟨vulns, hv, h⟩ := ExtractVulns_records exampleUnmarshal GoRuntime.std
    (scenario (reportJSON [libfooJSON, libbarJSON])) { Matches := [libfoo, libbar] }
    (by decide) rfl
  refine ⟨vulns, hv, fun r hr => ?_⟩
  obtain ⟨m, hm, h1, -, -, -, h5, h6, -⟩ := h r hr
  exact ⟨m, hm, h1, h5, h6⟩

/-- C8: on the success path the summary's `ID` after the call is its previous `ID` when that
was non-empty and the derived scan identity otherwise, and every returned record carries
this `ID` as its `ScanID`. -/
theorem ExtractVulns_scanID (u : Unmarshal) (rt : GoRuntime) (row : ImageScanSummary)
    (out : GrypeScanOutput) (hne : row.RawGrypeJSON ≠ []) (hok : u row.RawGrypeJSON = .ok out) :
    (row.ID ≠ [] → (ExtractVulns u rt row).row.ID = row.ID)
      ∧ (row.ID = [] → (ExtractVulns u rt row).row.ID
          = sha256Sum (row.Image ++ str "--" ++ row.Scanner ++ str "--" ++ row.Time))
      ∧ ∃ vulns, (ExtractVulns u rt row).vulns = some vulns
          ∧ ∀ r ∈ vulns, r.ScanID = (ExtractVulns u rt row).row.ID := by
  rw [ExtractVulns_ok u rt row out hne hok]
  refine ⟨?_, ?_, _, rfl, ?_⟩
  · intro h
    show (lazyID row).ID = _
    rw [lazyID, if_neg h]
  · intro h
    show (lazyID row).ID = _
    rw [lazyID, if_pos h]
    simp [ImageScanSummary.SetID, ImageScanSummary.id, stringsJoin]
  · intro r hr
    obtain ⟨hp, -⟩ := sorted_values rt (lazyID row) out.Matches
    obtain ⟨e, he, rfl⟩ := List.mem_map.1 (hp.mem_iff.1 hr)
    obtain ⟨m, hm, rfl⟩ := uniqueVulns_mem _ _ e he
    rfl

/-- Witness of C8: in the scenario the identity is unset, and both records carry the derived
identity of the summary. -/
theorem ExtractVulns_scanID_witness :
    (scenario (reportJSON [libfooJSON, libbarJSON])).RawGrypeJSON ≠ []
      ∧ exampleUnmarshal (scenario (reportJSON [libfooJSON, libbarJSON])).RawGrypeJSON
        = .ok { Matches := [libfoo, libbar] }
      ∧ (scenario (reportJSON [libfooJSON, libbarJSON])).ID = []
      ∧ (ExtractVulns exampleUnmarshal GoRuntime.std
          (scenario (reportJSON [libfooJSON, libbarJSON]))).row.ID
        = sha256Sum (str "app:1" ++ str "--" ++ str "scannerX" ++ str "--"
            ++ str "2024-01-01T00:00:00Z")
      ∧ (ExtractVulns exampleUnmarshal GoRuntime.std
          (scenario (reportJSON [libfooJSON, libbarJSON]))).vulns.map (List.map Vuln.ScanID)
        = some [str "0de0acb0beb835ac530883a49d480069757fdd6976632d480359dc9d535315ac",
                str "0de0acb0beb835ac530883a49d480069757fdd6976632d480359dc9d535315ac"] :=
  ⟨by decide, rfl, rfl,
    (ExtractVulns_scanID exampleUnmarshal GoRuntime.std
      (scenario (reportJSON [libfooJSON, libbarJSON])) { Matches := [libfoo, libbar] }
      (by decide) rfl).2.1 rfl,
    by decide⟩

theorem uniqueVulns_congr (r r' : ImageScanSummary) (ms : List GrypeMatch)
    (h : ∀ m, candidate r m = candidate r' m) : uniqueVulns r ms = uniqueVulns r' ms := by
  have : (fun (m : VulnMap) mt => m.assign (candidate r mt).ID (candidate r mt))
      = (fun (m : VulnMap) mt => m.assign (candidate r' mt).ID (candidate r' mt)) := by
    funext m mt
    rw [h mt]
  unfold uniqueVulns
  rw [this]

theorem uniqueVulns_mem_iff (row : ImageScanSummary) (ms : List GrypeMatch)
    (hsame : ∀ m ∈ ms, ∀ m' ∈ ms,
      (candidate row m).ID = (candidate row m').ID → candidate row m = candidate row m')
    (e : GoString × Vuln) :
    e ∈ uniqueVulns row ms ↔ ∃ m ∈ ms, e = ((candidate row m).ID, candidate row m) := by
  refine ⟨uniqueVulns_mem row ms e, ?_⟩
  induction ms using List.reverseRecOn with
  | nil => simp
  | append_singleton l a ih =>
    rintro ⟨m, hm, rfl⟩
    rw [uniqueVulns_snoc, VulnMap.mem_assign]
    rcases List.mem_append.1 hm with hml | hma
    · by_cases hk : (candidate row m).ID = (candidate row a).ID
      · right
        rw [hsame m hm a (by simp) hk]
      · left
        refine ⟨ih (fun x hx y hy => hsame x (by simp [hx]) y (by simp [hy])) ⟨m, hml, rfl⟩, hk⟩
    · right
      rw [List.mem_singleton.1 hma]

theorem uniqueVulns_perm (row : ImageScanSummary) (ms ms' : List GrypeMatch)
    (hperm : ms.Perm ms')
    (hsame : ∀ m ∈ ms, ∀ m' ∈ ms,
      (candidate row m).ID = (candidate row m').ID → candidate row m = candidate row m') :
    (uniqueVulns row ms).Perm (uniqueVulns row ms') := by
  have hsame' : ∀ m ∈ ms', ∀ m' ∈ ms',
      (candidate row m).ID = (candidate row m').ID → candidate row m = candidate row m' :=
    fun m hm m' hm' => hsame m (hperm.mem_iff.2 hm) m' (hperm.mem_iff.2 hm')
  refine (List.perm_ext_iff_of_nodup ?_ ?_).2 ?_
  · exact (uniqueVulns_nodupKeys row ms).of_map _
  · exact (uniqueVulns_nodupKeys row ms').of_map _
  · intro e
    rw [uniqueVulns_mem_iff row ms hsame, uniqueVulns_mem_iff row ms' hsame']
    constructor
    · rintro ⟨m, hm, h⟩
      exact ⟨m, hperm.mem_iff.1 hm, h⟩
    · rintro ⟨m, hm, h⟩
      exact ⟨m, hperm.mem_iff.2 hm, h⟩

/-- The returned list is determined by the entries of `uniqueVulns`, whatever the runtime. -/
theorem sortSlice_eq_of_perm (rt₁ rt₂ : GoRuntime) (row row' : ImageScanSummary)
    (ms ms' : List GrypeMatch) (h : (uniqueVulns row ms).Perm (uniqueVulns row' ms')) :
    rt₁.sortSlice lessID (rt₁.rangeValues (uniqueVulns row ms))
      = rt₂.sortSlice lessID (rt₂.rangeValues (uniqueVulns row' ms')) := by
  obtain ⟨hp₁, hs₁⟩ := sorted_values rt₁ row ms
  obtain ⟨hp₂, hs₂⟩ := sorted_values rt₂ row' ms'
  exact eq_of_perm_of_strict ((hp₁.trans (h.map Prod.snd)).trans hp₂.symm) hs₁ hs₂

theorem lazyID_idem (row : ImageScanSummary) : lazyID (lazyID row) = lazyID row := by
  unfold lazyID
  by_cases h : row.ID = []
  · rw [if_pos h]
    split <;> rfl
  · rw [if_neg h, if_neg h]

/-- The outcome of `ExtractVulns` does not depend on the runtime. -/
theorem ExtractVulns_runtime (u : Unmarshal) (rt₁ rt₂ : GoRuntime) (row : ImageScanSummary) :
    ExtractVulns u rt₁ row = ExtractVulns u rt₂ row := by
  by_cases hne : row.RawGrypeJSON = []
  · simp [ExtractVulns, hne]
  · cases hu : u row.RawGrypeJSON with
    | error e => rw [ExtractVulns_error u rt₁ row e hne hu, ExtractVulns_error u rt₂ row e hne hu]
    | ok out =>
      rw [ExtractVulns_ok u rt₁ row out hne hu, ExtractVulns_ok u rt₂ row out hne hu,
        sortSlice_eq_of_perm rt₁ rt₂ _ _ _ _ (List.Perm.refl _)]

/-- A second call of `ExtractVulns` on the receiver left by a first one gives the same
outcome. -/
theorem ExtractVulns_again (u : Unmarshal) (rt : GoRuntime) (row : ImageScanSummary) :
    ExtractVulns u rt (ExtractVulns u rt row).row = ExtractVulns u rt row := by
  by_cases hne : row.RawGrypeJSON = []
  · have : ExtractVulns u rt row = { row := row, vulns := some [], err := none } := by
      simp [ExtractVulns, hne]
    rw [this]
    exact this
  · have hne' : (lazyID row).RawGrypeJSON ≠ [] := by rw [lazyID_payload]; exact hne
    cases hu : u row.RawGrypeJSON with
    | error e =>
      rw [ExtractVulns_error u rt row e hne hu,
        ExtractVulns_error u rt (lazyID row) e hne' (by rw [lazyID_payload]; exact hu),
        lazyID_idem]
    | ok out =>
      rw [ExtractVulns_ok u rt row out hne hu,
        ExtractVulns_ok u rt (lazyID row) out hne' (by rw [lazyID_payload]; exact hu),
        lazyID_idem]

/-- C9, counterexample: the reports `[libfoo, libfooLow]` and `[libfooLow, libfoo]` hold the
same matches in two orders, the two matches have the same identity and differ in their
severity; the summary with the first report yields the record with severity `Low`, the one
with the second report the record with severity `High`. -/
theorem ExtractVulns_perm_counterexample :
    exampleUnmarshal (reportJSON [libfooJSON, libfooLowJSON])
        = .ok { Matches := [libfoo, libfooLow] }
      ∧ exampleUnmarshal (reportJSON [libfooLowJSON, libfooJSON])
        = .ok { Matches := [libfooLow, libfoo] }
      ∧ [libfoo, libfooLow].Perm [libfooLow, libfoo]
      ∧ (ExtractVulns exampleUnmarshal GoRuntime.std
          (scenario (reportJSON [libfooJSON, libfooLowJSON]))).vulns.map
            (List.map Vuln.Severity) = some [str "Low"]
      ∧ (ExtractVulns exampleUnmarshal GoRuntime.std
          (scenario (reportJSON [libfooLowJSON, libfooJSON]))).vulns.map
            (List.map Vuln.Severity) = some [str "High"]
      ∧ (ExtractVulns exampleUnmarshal GoRuntime.std
          (scenario (reportJSON [libfooJSON, libfooLowJSON]))).vulns
        ≠ (ExtractVulns exampleUnmarshal GoRuntime.std
          (scenario (reportJSON [libfooLowJSON, libfooJSON]))).vulns :=
  ⟨rfl, rfl, List.Perm.swap _ _ _, by decide, by decide, by decide⟩

/-- C9, amended: when any two matches of the report that yield the same `ID` yield the same
record, a summary whose payload decodes to a permutation of the matches gives the same list
of records, in the same order, under any runtime. -/
theorem ExtractVulns_perm (u : Unmarshal) (rt₁ rt₂ : GoRuntime) (row : ImageScanSummary)
    (payload : GoString) (out out' : GrypeScanOutput)
    (hne : row.RawGrypeJSON ≠ []) (hok : u row.RawGrypeJSON = .ok out)
    (hne' : payload ≠ []) (hok' : u payload = .ok out')
    (hperm : out.Matches.Perm out'.Matches)
    (hsame : ∀ m ∈ out.Matches, ∀ m' ∈ out.Matches,
      (candidate row m).ID = (candidate row m').ID → candidate row m = candidate row m') :
    (ExtractVulns u rt₂ { row with RawGrypeJSON := payload }).vulns
      = (ExtractVulns u rt₁ row).vulns := by
  rw [ExtractVulns_ok u rt₁ row out hne hok,
    ExtractVulns_ok u rt₂ { row with RawGrypeJSON := payload } out' hne' hok']
  have hc : ∀ m, candidate (lazyID { row with RawGrypeJSON := payload }) m
      = candidate (lazyID row) m := by
    intro m
    unfold lazyID
    split <;> rfl
  have hsame' : ∀ m ∈ out.Matches, ∀ m' ∈ out.Matches,
      (candidate (lazyID row) m).ID = (candidate (lazyID row) m').ID →
        candidate (lazyID row) m = candidate (lazyID row) m' := by
    intro m hm m' hm' h
    rw [candidate_lazyID_ID, candidate_lazyID_ID] at h
    rw [candidate_lazyID, candidate_lazyID, hsame m hm m' hm' h]
  show some _ = some _
  rw [uniqueVulns_congr _ _ _ hc]
  exact congrArg some (sortSlice_eq_of_perm rt₂ rt₁ _ _ _ _
    (uniqueVulns_perm (lazyID row) _ _ hperm hsame').symm)

/-- Witness of C9, amended: the scenario's report in its two orders. -/
theorem ExtractVulns_perm_witness :
    (scenario (reportJSON [libfooJSON, libbarJSON])).RawGrypeJSON ≠ []
      ∧ exampleUnmarshal (scenario (reportJSON [libfooJSON, libbarJSON])).RawGrypeJSON
        = .ok { Matches := [libfoo, libbar] }
      ∧ reportJSON [libbarJSON, libfooJSON] ≠ []
      ∧ exampleUnmarshal (reportJSON [libbarJSON, libfooJSON])
        = .ok { Matches := [libbar, libfoo] }
      ∧ (∀ m ∈ [libfoo, libbar], ∀ m' ∈ [libfoo, libbar],
          (candidate (scenario (reportJSON [libfooJSON, libbarJSON])) m).ID
            = (candidate (scenario (reportJSON [libfooJSON, libbarJSON])) m').ID →
          candidate (scenario (reportJSON [libfooJSON, libbarJSON])) m
            = candidate (scenario (reportJSON [libfooJSON, libbarJSON])) m')
      ∧ (ExtractVulns exampleUnmarshal GoRuntime.rev
          { scenario (reportJSON [libfooJSON, libbarJSON]) with
            RawGrypeJSON := reportJSON [libbarJSON, libfooJSON] }).vulns
        = (ExtractVulns exampleUnmarshal GoRuntime.std
          (scenario (reportJSON [libfooJSON, libbarJSON]))).vulns :=
  ⟨by decide, rfl, by decide, rfl, by decide,
    ExtractVulns_perm exampleUnmarshal GoRuntime.std GoRuntime.rev
      (scenario (reportJSON [libfooJSON, libbarJSON])) (reportJSON [libbarJSON, libfooJSON])
      { Matches := [libfoo, libbar] } { Matches := [libbar, libfoo] }
      (by decide) rfl (by decide) rfl (List.Perm.swap _ _ _) (by decide)⟩

/-- C10: a second call of `ExtractVulns` on the summary left by a first call, under any
two runtimes, leaves the same summary `ID` and returns the same error and the same list of
records as the first; this holds for every summary, in particular for one whose `ID` is
unset before the first call. -/
theorem ExtractVulns_twice (u : Unmarshal) (rt₁ rt₂ : GoRuntime) (row : ImageScanSummary) :
    (ExtractVulns u rt₂ (ExtractVulns u rt₁ row).row).row.ID = (ExtractVulns u rt₁ row).row.ID
      ∧ (ExtractVulns u rt₂ (ExtractVulns u rt₁ row).row).err = (ExtractVulns u rt₁ row).err
      ∧ (ExtractVulns u rt₂ (ExtractVulns u rt₁ row).row).vulns
        = (ExtractVulns u rt₁ row).vulns := by
  rw [ExtractVulns_runtime u rt₂ rt₁, ExtractVulns_again]
  exact ⟨rfl, rfl, rfl⟩

/-! ## The digest as a string -/

theorem hexDigit_inj (i j : Fin 16) (h : hexDigit i.val = hexDigit j.val) : i = j := by
  revert i j
  decide

theorem hexDigit_range (i : Fin 16) :
    (48 ≤ (hexDigit i.val).val ∧ (hexDigit i.val).val ≤ 57)
      ∨ (97 ≤ (hexDigit i.val).val ∧ (hexDigit i.val).val ≤ 102) := by
  revert i
  decide

theorem sprintfHex_cons (b : Fin 256) (bs : List (Fin 256)) :
    sprintfHex (b :: bs) = hexDigit (b.val / 16) :: hexDigit (b.val % 16) :: sprintfHex bs := by
  simp [sprintfHex]

theorem sprintfHex_injective (bs cs : List (Fin 256)) (h : sprintfHex bs = sprintfHex cs) :
    bs = cs := by
  induction bs generalizing cs with
  | nil =>
    cases cs with
    | nil => rfl
    | cons c cs => rw [sprintfHex_cons] at h; cases h
  | cons b bs ih =>
    cases cs with
    | nil => rw [sprintfHex_cons] at h; cases h
    | cons c cs =>
      rw [sprintfHex_cons, sprintfHex_cons] at h
      injection h with h1 h
      injection h with h2 h
      have hb : b.val / 16 < 16 := by omega
      have hc : c.val / 16 < 16 := by omega
      have hb' : b.val % 16 < 16 := by omega
      have hc' : c.val % 16 < 16 := by omega
      have e1 := hexDigit_inj ⟨_, hb⟩ ⟨_, hc⟩ h1
      have e2 := hexDigit_inj ⟨_, hb'⟩ ⟨_, hc'⟩ h2
      have e1' : b.val / 16 = c.val / 16 := congrArg Fin.val e1
      have e2' : b.val % 16 = c.val % 16 := congrArg Fin.val e2
      have : b = c := Fin.ext (by omega)
      rw [this, ih cs h]

theorem sprintfHex_length (bs : List (Fin 256)) : (sprintfHex bs).length = 2 * bs.length := by
  induction bs with
  | nil => rfl
  | cons b bs ih => rw [sprintfHex_cons]; simp [ih]; omega

theorem sprintfHex_range (bs : List (Fin 256)) (c : Fin 256) (hc : c ∈ sprintfHex bs) :
    (48 ≤ c.val ∧ c.val ≤ 57) ∨ (97 ≤ c.val ∧ c.val ≤ 102) := by
  induction bs with
  | nil => simp [sprintfHex] at hc
  | cons b bs ih =>
    rw [sprintfHex_cons] at hc
    rcases List.mem_cons.1 hc with rfl | hc
    · exact hexDigit_range ⟨b.val / 16, by omega⟩
    · rcases List.mem_cons.1 hc with rfl | hc
      · exact hexDigit_range ⟨b.val % 16, by omega⟩
      · exact ih hc

theorem sha256_Sum_length (data : List (Fin 256)) : (sha256.Sum data).length = 32 := by
  simp [sha256.Sum, sha256.put32]

theorem sha256Sum_length (s : GoString) : (sha256Sum s).length = 64 := by
  rw [sha256Sum, sprintfHex_length, sha256_Sum_length]

theorem sha256Sum_ne_nil (s : GoString) : sha256Sum s ≠ [] := by
  intro h
  have := sha256Sum_length s
  rw [h] at this
  cases this

theorem str_delim : str "--" = [45, 45] := by decide

theorem str_dash : str "-" = [45] := by decide

theorem ImageScanSummary_id_eq (row : ImageScanSummary) :
    row.id = row.Image ++ str "--" ++ row.Scanner ++ str "--" ++ row.Time := by
  simp [ImageScanSummary.id, stringsJoin]

theorem sha256Sum_ne_of_ne (a b : GoString) (hab : a ≠ b)
    (hnc : sha256.Sum a = sha256.Sum b → a = b) : sha256Sum a ≠ sha256Sum b :=
  fun h => hab (hnc (sprintfHex_injective _ _ h))

theorem ImageScanSummary_id_ne (r₁ r₂ : ImageScanSummary)
    (hagree : (r₁.Image = r₂.Image ∧ r₁.Scanner = r₂.Scanner)
      ∨ (r₁.Image = r₂.Image ∧ r₁.Time = r₂.Time)
      ∨ (r₁.Scanner = r₂.Scanner ∧ r₁.Time = r₂.Time))
    (hdiff : (r₁.Image, r₁.Scanner, r₁.Time) ≠ (r₂.Image, r₂.Scanner, r₂.Time)) :
    r₁.id ≠ r₂.id := by
  intro h
  apply hdiff
  simp only [ImageScanSummary.id, stringsJoin, List.append_assoc] at h
  rcases hagree with ⟨h1, h2⟩ | ⟨h1, h2⟩ | ⟨h1, h2⟩
  · rw [h1, h2] at h ⊢
    simp only [List.append_cancel_left_eq] at h
    rw [h]
  · rw [h1, h2] at h ⊢
    simp only [List.append_cancel_left_eq, List.append_cancel_right_eq] at h
    rw [h]
  · rw [h1, h2] at h ⊢
    simp only [List.append_cancel_right_eq] at h
    rw [h]

theorem Vuln_id_ne (v₁ v₂ : Vuln)
    (hagree : (v₁.Name = v₂.Name ∧ v₁.Installed = v₂.Installed
          ∧ v₁.Vulnerability = v₂.Vulnerability ∧ v₁.Type_ = v₂.Type_)
      ∨ (v₁.Name = v₂.Name ∧ v₁.Installed = v₂.Installed
          ∧ v₁.Vulnerability = v₂.Vulnerability ∧ v₁.Time = v₂.Time)
      ∨ (v₁.Name = v₂.Name ∧ v₁.Installed = v₂.Installed
          ∧ v₁.Type_ = v₂.Type_ ∧ v₁.Time = v₂.Time)
      ∨ (v₁.Name = v₂.Name ∧ v₁.Vulnerability = v₂.Vulnerability
          ∧ v₁.Type_ = v₂.Type_ ∧ v₁.Time = v₂.Time)
      ∨ (v₁.Installed = v₂.Installed ∧ v₁.Vulnerability = v₂.Vulnerability
          ∧ v₁.Type_ = v₂.Type_ ∧ v₁.Time = v₂.Time))
    (hdiff : (v₁.Name, v₁.Installed, v₁.Vulnerability, v₁.Type_, v₁.Time)
      ≠ (v₂.Name, v₂.Installed, v₂.Vulnerability, v₂.Type_, v₂.Time)) :
    v₁.id ≠ v₂.id := by
  intro h
  apply hdiff
  simp only [Vuln.id, stringsJoin, List.append_assoc] at h
  rcases hagree with ⟨h1, h2, h3, h4⟩ | ⟨h1, h2, h3, h4⟩ | ⟨h1, h2, h3, h4⟩
    | ⟨h1, h2, h3, h4⟩ | ⟨h1, h2, h3, h4⟩
  all_goals
    rw [h1, h2, h3, h4] at h ⊢
    simp only [List.append_cancel_left_eq, List.append_cancel_right_eq] at h
    rw [h]

/-- C11: two summaries that agree on two of `Image`, `Scanner`, `Time` and differ in the
third have different identity-input strings, and two `Vuln`s that agree on four of `Name`,
`Installed`, `Vulnerability`, `Type`, `Time` and differ in the fifth have different
identity-input strings; the `ID`s written by `SetID` then differ whenever SHA-256 does not
collide on the two strings. -/
theorem SetID_sensitive (r₁ r₂ : ImageScanSummary) (v₁ v₂ : Vuln) :
    ((r₁.Image = r₂.Image ∧ r₁.Scanner = r₂.Scanner)
        ∨ (r₁.Image = r₂.Image ∧ r₁.Time = r₂.Time)
        ∨ (r₁.Scanner = r₂.Scanner ∧ r₁.Time = r₂.Time) →
      (r₁.Image, r₁.Scanner, r₁.Time) ≠ (r₂.Image, r₂.Scanner, r₂.Time) →
      r₁.id ≠ r₂.id
        ∧ ((sha256.Sum r₁.id = sha256.Sum r₂.id → r₁.id = r₂.id) → r₁.SetID.ID ≠ r₂.SetID.ID))
    ∧ ((v₁.Name = v₂.Name ∧ v₁.Installed = v₂.Installed
            ∧ v₁.Vulnerability = v₂.Vulnerability ∧ v₁.Type_ = v₂.Type_)
        ∨ (v₁.Name = v₂.Name ∧ v₁.Installed = v₂.Installed
            ∧ v₁.Vulnerability = v₂.Vulnerability ∧ v₁.Time = v₂.Time)
        ∨ (v₁.Name = v₂.Name ∧ v₁.Installed = v₂.Installed
            ∧ v₁.Type_ = v₂.Type_ ∧ v₁.Time = v₂.Time)
        ∨ (v₁.Name = v₂.Name ∧ v₁.Vulnerability = v₂.Vulnerability
            ∧ v₁.Type_ = v₂.Type_ ∧ v₁.Time = v₂.Time)
        ∨ (v₁.Installed = v₂.Installed ∧ v₁.Vulnerability = v₂.Vulnerability
            ∧ v₁.Type_ = v₂.Type_ ∧ v₁.Time = v₂.Time) →
      (v₁.Name, v₁.Installed, v₁.Vulnerability, v₁.Type_, v₁.Time)
        ≠ (v₂.Name, v₂.Installed, v₂.Vulnerability, v₂.Type_, v₂.Time) →
      v₁.id ≠ v₂.id
        ∧ ((sha256.Sum v₁.id = sha256.Sum v₂.id → v₁.id = v₂.id) → v₁.SetID.ID ≠ v₂.SetID.ID)) := by
  constructor
  · intro hagree hdiff
    have h := ImageScanSummary_id_ne r₁ r₂ hagree hdiff
    exact ⟨h, fun hnc => sha256Sum_ne_of_ne _ _ h hnc⟩
  · intro hagree hdiff
    have h := Vuln_id_ne v₁ v₂ hagree hdiff
    exact ⟨h, fun hnc => sha256Sum_ne_of_ne _ _ h hnc⟩

/-- Witness of C11: the scenario's summary and the same summary scanned by `scannerY`; the
record of `libfoo` and the same record for version `1.3`. -/
theorem SetID_sensitive_witness :
    (scenario []).id ≠ ({ scenario [] with Scanner := str "scannerY" }).id
      ∧ (scenario []).SetID.ID ≠ ({ scenario [] with Scanner := str "scannerY" }).SetID.ID
      ∧ (candidate (scenario []) libfoo).id
        ≠ ({ candidate (scenario []) libfoo with Installed := str "1.3" }).id
      ∧ (candidate (scenario []) libfoo).SetID.ID
        ≠ ({ candidate (scenario []) libfoo with Installed := str "1.3" }).SetID.ID :=
  have h := SetID_sensitive (scenario []) { scenario [] with Scanner := str "scannerY" }
    (candidate (scenario []) libfoo)
    { candidate (scenario []) libfoo with Installed := str "1.3" }
  have h₁ := h.1 (Or.inr (Or.inl ⟨rfl, rfl⟩)) (by decide)
  have h₂ := h.2 (Or.inr (Or.inr (Or.inr (Or.inl ⟨rfl, rfl, rfl, rfl⟩)))) (by decide)
  ⟨h₁.1, h₁.2 (fun hc => absurd hc (by decide)), h₂.1, h₂.2 (fun hc => absurd hc (by decide))⟩

/-- C14: `sha256Sum` returns 64 characters, two for each of the 32 bytes of the digest with
the most significant nibble first, each one of `0`-`9` or `a`-`f`; so the `ID` written by
either `SetID` is not the empty string. -/
theorem sha256Sum_hex (s : GoString) (row : ImageScanSummary) (v : Vuln) :
    (sha256Sum s).length = 64
      ∧ (sha256.Sum s).length = 32
      ∧ sha256Sum s
        = (sha256.Sum s).flatMap (fun b => [hexDigit (b.val / 16), hexDigit (b.val % 16)])
      ∧ (∀ c ∈ sha256Sum s, (48 ≤ c.val ∧ c.val ≤ 57) ∨ (97 ≤ c.val ∧ c.val ≤ 102))
      ∧ (List.range 16).map hexDigit = str "0123456789abcdef"
      ∧ row.SetID.ID ≠ []
      ∧ v.SetID.ID ≠ []
      ∧ decide (row.SetID.ID = []) = false :=
  ⟨sha256Sum_length s, sha256_Sum_length s, rfl, fun c hc => sprintfHex_range _ c hc, by decide,
    sha256Sum_ne_nil _, sha256Sum_ne_nil _, decide_eq_false (sha256Sum_ne_nil _)⟩

/-! ## The delimiter -/

theorem join_cancel (a b x y : GoString) (ha : delimiterSafe a) (hb : delimiterSafe b)
    (h : a ++ (str "--" ++ x) = b ++ (str "--" ++ y)) : a = b ∧ x = y := by
  have key : ∀ (a b x y : GoString), delimiterSafe b →
      ∀ c, b = a ++ c → str "--" ++ x = c ++ (str "--" ++ y) → c = [] := by
    intro a b x y hb c hbc hc
    rw [str_delim] at hc
    unfold delimiterSafe at hb
    rw [str_delim, str_dash] at hb
    cases c with
    | nil => rfl
    | cons c₀ c =>
      exfalso
      simp only [List.cons_append, List.nil_append, List.cons.injEq] at hc
      obtain ⟨h0, hc⟩ := hc
      cases c with
      | nil => exact hb.2 ⟨a, by rw [hbc, ← h0]⟩
      | cons c₁ c =>
        simp only [List.cons_append, List.cons.injEq] at hc
        obtain ⟨h1, -⟩ := hc
        exact hb.1 ⟨a, c, by rw [hbc, ← h0, ← h1]; simp⟩
  rcases List.append_eq_append_iff.1 h with ⟨c, hbc, hc⟩ | ⟨c, hac, hc⟩
  · have := key a b x y hb c hbc hc
    subst this
    simp only [List.append_nil] at hbc
    subst hbc
    simp only [List.nil_append, List.append_cancel_left_eq] at hc
    exact ⟨rfl, hc⟩
  · have := key b a y x ha c hac hc
    subst this
    simp only [List.append_nil] at hac
    subst hac
    simp only [List.nil_append, List.append_cancel_left_eq] at hc
    exact ⟨rfl, hc.symm⟩

theorem candidate_id (row : ImageScanSummary) (m : GrypeMatch) :
    (candidate row m).id = m.Artifact.Name ++ (str "--" ++ (m.Artifact.Version ++ (str "--"
      ++ (m.Vulnerability.ID ++ (str "--" ++ (m.Artifact.Type_ ++ (str "--" ++ row.Time))))))) := by
  simp [candidate, Vuln.SetID, Vuln.id, stringsJoin]

/-- C12, counterexample: the matches `dashName` (name `a--b`, version `c`) and `dashVersion`
(name `a`, version `b--c`) have the same identity-input string, hence the same `ID`, and
differ in `Name` and `Installed`; the call on their report keeps one record of the two. -/
theorem candidate_collision_counterexample :
    delimiterUnmarshal (reportJSON [dashNameJSON, dashVersionJSON])
        = .ok { Matches := [dashName, dashVersion] }
      ∧ (candidate (scenario (reportJSON [dashNameJSON, dashVersionJSON])) dashName).id
        = (candidate (scenario (reportJSON [dashNameJSON, dashVersionJSON])) dashVersion).id
      ∧ (candidate (scenario (reportJSON [dashNameJSON, dashVersionJSON])) dashName).ID
        = (candidate (scenario (reportJSON [dashNameJSON, dashVersionJSON])) dashVersion).ID
      ∧ (candidate (scenario (reportJSON [dashNameJSON, dashVersionJSON])) dashName).Name
        ≠ (candidate (scenario (reportJSON [dashNameJSON, dashVersionJSON])) dashVersion).Name
      ∧ (candidate (scenario (reportJSON [dashNameJSON, dashVersionJSON])) dashName).Installed
        ≠ (candidate (scenario (reportJSON [dashNameJSON, dashVersionJSON])) dashVersion).Installed
      ∧ (ExtractVulns delimiterUnmarshal GoRuntime.std
          (scenario (reportJSON [dashNameJSON, dashVersionJSON]))).vulns.map
            (List.map (fun r => (r.Name, r.Installed)))
        = some [(str "a", str "b--c")] :=
  ⟨rfl, by decide, by decide, by decide, by decide, by decide⟩

/-- C12, amended: when two matches of one call get the same `ID` and SHA-256 does not collide
on the identity-input strings of their records, these strings are equal and the records have
the same `Time`; if moreover `Name`, `Installed` and `Vulnerability` of both neither contain
`--` nor end in `-`, the records have the same `Name`, `Installed`, `Vulnerability` and
`Type`. -/
theorem candidate_collision (row : ImageScanSummary) (m₁ m₂ : GrypeMatch)
    (hID : (candidate row m₁).ID = (candidate row m₂).ID)
    (hnc : sha256.Sum (candidate row m₁).id = sha256.Sum (candidate row m₂).id →
      (candidate row m₁).id = (candidate row m₂).id) :
    (candidate row m₁).id = (candidate row m₂).id
      ∧ (candidate row m₁).Time = (candidate row m₂).Time
      ∧ (delimiterSafe m₁.Artifact.Name → delimiterSafe m₂.Artifact.Name →
          delimiterSafe m₁.Artifact.Version → delimiterSafe m₂.Artifact.Version →
          delimiterSafe m₁.Vulnerability.ID → delimiterSafe m₂.Vulnerability.ID →
          (candidate row m₁).Name = (candidate row m₂).Name
            ∧ (candidate row m₁).Installed = (candidate row m₂).Installed
            ∧ (candidate row m₁).Vulnerability = (candidate row m₂).Vulnerability
            ∧ (candidate row m₁).Type_ = (candidate row m₂).Type_) := by
  have hid : (candidate row m₁).id = (candidate row m₂).id :=
    hnc (sprintfHex_injective _ _ hID)
  refine ⟨hid, rfl, ?_⟩
  intro hn₁ hn₂ hv₁ hv₂ hc₁ hc₂
  rw [candidate_id, candidate_id] at hid
  obtain ⟨e₁, hid⟩ := join_cancel _ _ _ _ hn₁ hn₂ hid
  obtain ⟨e₂, hid⟩ := join_cancel _ _ _ _ hv₁ hv₂ hid
  obtain ⟨e₃, hid⟩ := join_cancel _ _ _ _ hc₁ hc₂ hid
  exact ⟨e₁, e₂, e₃, List.append_cancel_right hid⟩

/-- Witness of C12, amended: the two findings of `libfoo`, which differ in their severity. -/
theorem candidate_collision_witness :
    (candidate (scenario []) libfoo).ID = (candidate (scenario []) libfooLow).ID
      ∧ delimiterSafe libfoo.Artifact.Name ∧ delimiterSafe libfooLow.Artifact.Name
      ∧ delimiterSafe libfoo.Artifact.Version ∧ delimiterSafe libfooLow.Artifact.Version
      ∧ delimiterSafe libfoo.Vulnerability.ID ∧ delimiterSafe libfooLow.Vulnerability.ID
      ∧ (candidate (scenario []) libfoo).Name = (candidate (scenario []) libfooLow).Name
      ∧ (candidate (scenario []) libfoo).Installed = (candidate (scenario []) libfooLow).Installed
      ∧ (candidate (scenario []) libfoo).Vulnerability
        = (candidate (scenario []) libfooLow).Vulnerability
      ∧ (candidate (scenario []) libfoo).Type_ = (candidate (scenario []) libfooLow).Type_ :=
  ⟨rfl, by decide, by decide, by decide, by decide, by decide, by decide,
    (candidate_collision (scenario []) libfoo libfooLow rfl (fun _ => rfl)).2.2
      (by decide) (by decide) (by decide) (by decide) (by decide) (by decide)⟩

/-! ## The order of the names -/

theorem lex_append_of_not_prefix {a b : GoString} (x y : GoString) (h : a < b)
    (hp : ¬ a <+: b) : a ++ x < b ++ y := by
  induction h with
  | nil => exact absurd (List.nil_prefix) hp
  | @cons c l₁ l₂ _ ih =>
    have : ¬ l₁ <+: l₂ := fun hl => hp ((List.cons_prefix_cons).2 ⟨rfl, hl⟩)
    exact List.Lex.cons (ih this)
  | rel hr => exact List.Lex.rel hr

theorem sublist_pair_of_strict {l : List Vuln} (hs : l.Pairwise (fun a b => a.id < b.id))
    {a b : Vuln} (ha : a ∈ l) (hb : b ∈ l) (hab : a.id < b.id) : [a, b].Sublist l := by
  induction l with
  | nil => cases ha
  | cons x xs ih =>
    rw [List.pairwise_cons] at hs
    rcases List.mem_cons.1 ha with hax | hax
    · rcases List.mem_cons.1 hb with hbx | hbx
      · rw [hax, hbx] at hab
        exact absurd hab (lt_irrefl _)
      · rw [hax]
        exact List.Sublist.cons₂ _ (List.singleton_sublist.2 hbx)
    · rcases List.mem_cons.1 hb with hbx | hbx
      · rw [hbx] at hab
        exact absurd (lt_trans (hs.1 a hax) hab) (lt_irrefl _)
      · exact List.Sublist.cons _ (ih hs.2 hax hbx)

/-- C13, counterexample: the name `libfoo` is lexicographically smaller than `libfoo++`, and
the record of `libfoo++` is returned before the record of `libfoo`, because `+` is smaller
than the `-` of the delimiter. -/
theorem ExtractVulns_name_order_counterexample :
    delimiterUnmarshal (reportJSON [libfooJSON, libfooPlusJSON])
        = .ok { Matches := [libfoo, libfooPlus] }
      ∧ str "libfoo" < str "libfoo++"
      ∧ (ExtractVulns delimiterUnmarshal GoRuntime.std
          (scenario (reportJSON [libfooJSON, libfooPlusJSON]))).vulns.map (List.map Vuln.Name)
        = some [str "libfoo++", str "libfoo"] :=
  ⟨rfl, by decide, by decide⟩

theorem lex_append_left (p : GoString) {x y : GoString} (h : x < y) : p ++ x < p ++ y := by
  induction p with
  | nil => exact h
  | cons c p ih => exact List.Lex.cons ih

theorem joined_lt_of_name (n₁ n₂ x y : GoString) (hlt : n₁ < n₂)
    (hrest : ∀ s, n₂ = n₁ ++ s →
      (∃ c t, s = c :: t ∧ (45 : Fin 256) < c) ∨ (∃ c t, s = 45 :: c :: t ∧ (45 : Fin 256) < c)) :
    n₁ ++ (str "--" ++ x) < n₂ ++ (str "--" ++ y) := by
  by_cases hp : n₁ <+: n₂
  · obtain ⟨s, hs⟩ := hp
    rw [← hs, List.append_assoc, str_delim]
    apply lex_append_left
    rcases hrest s hs.symm with ⟨c, t, rfl, hc⟩ | ⟨c, t, rfl, hc⟩
    · exact List.Lex.rel hc
    · exact List.Lex.cons (List.Lex.rel hc)
  · exact lex_append_of_not_prefix _ _ hlt hp

/-- C13, amended: for two returned records `a` and `b`, if `a.Name` is lexicographically
smaller than `b.Name` and, in case `a.Name` is a prefix of `b.Name`, the rest `s` of
`b.Name` after `a.Name` begins with a byte greater than `-` (the byte 45) or with `-`
followed by a byte greater than `-`, then `a` appears before `b` in the returned list. -/
theorem ExtractVulns_name_order (u : Unmarshal) (rt : GoRuntime) (row : ImageScanSummary)
    (out : GrypeScanOutput) (hne : row.RawGrypeJSON ≠ []) (hok : u row.RawGrypeJSON = .ok out) :
    ∃ vulns, (ExtractVulns u rt row).vulns = some vulns
      ∧ ∀ a ∈ vulns, ∀ b ∈ vulns, a.Name < b.Name →
          (∀ s, b.Name = a.Name ++ s →
            (∃ c t, s = c :: t ∧ (45 : Fin 256) < c)
              ∨ (∃ c t, s = 45 :: c :: t ∧ (45 : Fin 256) < c)) →
          [a, b].Sublist vulns := by
  rw [ExtractVulns_ok u rt row out hne hok]
  refine ⟨_, rfl, ?_⟩
  intro a ha b hb hlt hrest
  obtain ⟨-, hs⟩ := sorted_values rt (lazyID row) out.Matches
  refine sublist_pair_of_strict hs ha hb ?_
  simp only [Vuln.id, stringsJoin, List.append_assoc]
  exact joined_lt_of_name _ _ _ _ hlt hrest

/-- Witness of C13, amended: the report with `libfoo-dev`, `libfoo` and `lib`, each name a
prefix of the next; the records are returned in the order of the names. -/
theorem ExtractVulns_name_order_witness :
    (scenario (reportJSON [libfooDevJSON, libfooJSON, libShortJSON])).RawGrypeJSON ≠ []
      ∧ prefixUnmarshal (scenario (reportJSON [libfooDevJSON, libfooJSON, libShortJSON])).RawGrypeJSON
        = .ok { Matches := [libfooDev, libfoo, libShort] }
      ∧ (ExtractVulns prefixUnmarshal GoRuntime.std
          (scenario (reportJSON [libfooDevJSON, libfooJSON, libShortJSON]))).vulns.map
            (List.map Vuln.Name)
        = some [str "lib", str "libfoo", str "libfoo-dev"]
      ∧ ∃ vulns, (ExtractVulns prefixUnmarshal GoRuntime.std
          (scenario (reportJSON [libfooDevJSON, libfooJSON, libShortJSON]))).vulns = some vulns
        ∧ [candidate (scenario (reportJSON [libfooDevJSON, libfooJSON, libShortJSON])).SetID
              libShort,
            candidate (scenario (reportJSON [libfooDevJSON, libfooJSON, libShortJSON])).SetID
              libfoo].Sublist vulns
        ∧ [candidate (scenario (reportJSON [libfooDevJSON, libfooJSON, libShortJSON])).SetID
              libfoo,
            candidate (scenario (reportJSON [libfooDevJSON, libfooJSON, libShortJSON])).SetID
              libfooDev].Sublist vulns := by
  refine ⟨by decide, rfl, by decide, ?_⟩
  obtain ⟨vulns, hv, h⟩ := ExtractVulns_name_order prefixUnmarshal GoRuntime.std
    (scenario (reportJSON [libfooDevJSON, libfooJSON, libShortJSON]))
    { Matches := [libfooDev, libfoo, libShort] } (by decide) rfl
  have hd : (ExtractVulns prefixUnmarshal GoRuntime.std
      (scenario (reportJSON [libfooDevJSON, libfooJSON, libShortJSON]))).vulns
      = some [candidate (scenario (reportJSON [libfooDevJSON, libfooJSON, libShortJSON])).SetID
          libShort,
        candidate (scenario (reportJSON [libfooDevJSON, libfooJSON, libShortJSON])).SetID libfoo,
        candidate (scenario (reportJSON [libfooDevJSON, libfooJSON, libShortJSON])).SetID
          libfooDev] := by decide
  have hvs := Option.some.inj (hv.symm.trans hd)
  refine ⟨vulns, hv, ?_, ?_⟩
  · refine h _ (by rw [hvs]; simp) _ (by rw [hvs]; simp) (by decide) ?_
    intro s hs
    have e : s = str "foo" :=
      List.append_cancel_left (hs.symm.trans (by decide : str "libfoo" = str "lib" ++ str "foo"))
    exact Or.inl ⟨102, str "oo", by rw [e]; decide, by decide⟩
  · refine h _ (by rw [hvs]; simp) _ (by rw [hvs]; simp) (by decide) ?_
    intro s hs
    have e : s = str "-dev" :=
      List.append_cancel_left
        (hs.symm.trans (by decide : str "libfoo-dev" = str "libfoo" ++ str "-dev"))
    exact Or.inr ⟨100, str "ev", by rw [e]; decide, by decide⟩

/-- The condition of C13 on the rest of the longer name cannot be dropped: when the name `n`
is extended by a rest `s` that does not meet it, there are two records with the names `n`
and `n ++ s` and the same other identity fields but `Installed`, of which the one with the
longer name has the smaller sort key. -/
theorem name_rest_needed (n s : GoString) (v : Vuln) (hs : s ≠ [])
    (hno : ¬ ((∃ c t, s = c :: t ∧ (45 : Fin 256) < c)
      ∨ (∃ c t, s = 45 :: c :: t ∧ (45 : Fin 256) < c))) :
    n < n ++ s ∧ ∃ i₁ : GoString,
      ({ v with Name := n ++ s, Installed := [] }).id
        < ({ v with Name := n, Installed := i₁ }).id := by
  have hlt : n < n ++ s := by
    have h0 : n ++ [] < n ++ s := by
      apply lex_append_left
      cases s with
      | nil => exact absurd rfl hs
      | cons c t => exact List.Lex.nil
    rwa [List.append_nil] at h0
  refine ⟨hlt, ?_⟩
  simp only [Vuln.id, stringsJoin, List.append_assoc, str_delim]
  cases s with
  | nil => exact absurd rfl hs
  | cons c t =>
    have hc : ¬ (45 : Fin 256) < c := fun h => hno (Or.inl ⟨c, t, rfl, h⟩)
    by_cases hc45 : c = 45
    · subst hc45
      cases t with
      | nil =>
        refine ⟨[46], lex_append_left n ?_⟩
        exact List.Lex.cons (List.Lex.cons (List.Lex.rel (by decide)))
      | cons c₁ t₁ =>
        have hc₁ : ¬ (45 : Fin 256) < c₁ := fun h => hno (Or.inr ⟨c₁, t₁, rfl, h⟩)
        by_cases hc₁45 : c₁ = 45
        · subst hc₁45
          refine ⟨t₁ ++ [45, 45, 46], lex_append_left n ?_⟩
          refine List.Lex.cons (List.Lex.cons ?_)
          simp only [List.append_assoc]
          apply lex_append_left
          exact List.Lex.cons (List.Lex.cons (List.Lex.rel (by decide)))
        · refine ⟨[], lex_append_left n ?_⟩
          exact List.Lex.cons (List.Lex.rel (lt_of_le_of_ne (not_lt.1 hc₁) hc₁45))
    · refine ⟨[], lex_append_left n ?_⟩
      exact List.Lex.rel (lt_of_le_of_ne (not_lt.1 hc) hc45)

/-! ## The receiver after the call -/

theorem ExtractVulns_row (u : Unmarshal) (rt : GoRuntime) (row : ImageScanSummary) :
    (ExtractVulns u rt row).row = if row.RawGrypeJSON = [] then row else lazyID row := by
  by_cases hne : row.RawGrypeJSON = []
  · simp [ExtractVulns, hne]
  · rw [if_neg hne]
    cases hu : u row.RawGrypeJSON with
    | error e => rw [ExtractVulns_error u rt row e hne hu]
    | ok out => rw [ExtractVulns_ok u rt row out hne hu]

theorem lazyID_frame (row : ImageScanSummary) :
    lazyID row = { row with ID := (lazyID row).ID } := by
  unfold lazyID
  split <;> rfl

/-- C15: on every path the summary after `ExtractVulns` is the summary before it with at
most the field `ID` replaced, and an `ID` that was non-empty is kept; `SetID` of a summary
and `SetID` of a `Vuln` replace the field `ID` only. -/
theorem ExtractVulns_frame (u : Unmarshal) (rt : GoRuntime) (row : ImageScanSummary)
    (v : Vuln) :
    (ExtractVulns u rt row).row = { row with ID := (ExtractVulns u rt row).row.ID }
      ∧ (row.ID ≠ [] → (ExtractVulns u rt row).row.ID = row.ID)
      ∧ row.SetID = { row with ID := row.SetID.ID }
      ∧ v.SetID = { v with ID := v.SetID.ID } := by
  refine ⟨?_, ?_, rfl, rfl⟩
  · rw [ExtractVulns_row]
    split
    · rfl
    · exact lazyID_frame row
  · intro h
    rw [ExtractVulns_row]
    split
    · rfl
    · rw [lazyID, if_neg h]

/-- Witness of C15: the scenario's summary with the identity `id-1` already set, on the
success path. -/
theorem ExtractVulns_frame_witness :
    ({ scenario (reportJSON [libfooJSON, libbarJSON]) with ID := str "id-1" }).ID ≠ []
      ∧ (ExtractVulns exampleUnmarshal GoRuntime.std
          { scenario (reportJSON [libfooJSON, libbarJSON]) with ID := str "id-1" }).row.ID
        = str "id-1"
      ∧ (ExtractVulns exampleUnmarshal GoRuntime.std
          { scenario (reportJSON [libfooJSON, libbarJSON]) with ID := str "id-1" }).row
        = { scenario (reportJSON [libfooJSON, libbarJSON]) with ID := str "id-1" } :=
  have h := ExtractVulns_frame exampleUnmarshal GoRuntime.std
    { scenario (reportJSON [libfooJSON, libbarJSON]) with ID := str "id-1" }
    (candidate (scenario []) libfoo)
  ⟨by decide, h.2.1 (by decide), h.1.trans (by rw [h.2.1 (by decide)])⟩

/-! ## The last match wins -/

theorem uniqueVulns_last (row : ImageScanSummary) (ms : List GrypeMatch) (e : GoString × Vuln)
    (h : e ∈ uniqueVulns row ms) :
    ∃ l₁ m l₂, ms = l₁ ++ m :: l₂ ∧ e = ((candidate row m).ID, candidate row m)
      ∧ ∀ m' ∈ l₂, (candidate row m').ID ≠ e.1 := by
  induction ms using List.reverseRecOn with
  | nil => simp [uniqueVulns] at h
  | append_singleton l a ih =>
    rw [uniqueVulns_snoc, VulnMap.mem_assign] at h
    rcases h with ⟨h, hk⟩ | h
    · obtain ⟨l₁, m, l₂, hl, he, hlast⟩ := ih h
      refine ⟨l₁, m, l₂ ++ [a], by rw [hl]; simp, he, ?_⟩
      intro m' hm'
      rcases List.mem_append.1 hm' with hm' | hm'
      · exact hlast m' hm'
      · rw [List.mem_singleton.1 hm']
        exact fun hc => hk hc.symm
    · exact ⟨l, a, [], rfl, h, by simp⟩

/-- C16: on the success path every returned record `r` is built from the last match of the
report whose identity is `r.ID`: the report is `l₁ ++ m :: l₂` where `m` has the identity
`r.ID`, no match of `l₂` has it, and `Severity` and `FixedIn` of `r` are those of `m`. -/
theorem ExtractVulns_last_wins (u : Unmarshal) (rt : GoRuntime) (row : ImageScanSummary)
    (out : GrypeScanOutput) (hne : row.RawGrypeJSON ≠ []) (hok : u row.RawGrypeJSON = .ok out) :
    ∃ vulns, (ExtractVulns u rt row).vulns = some vulns
      ∧ ∀ r ∈ vulns, ∃ l₁ m l₂, out.Matches = l₁ ++ m :: l₂
          ∧ (candidate row m).ID = r.ID
          ∧ (∀ m' ∈ l₂, (candidate row m').ID ≠ r.ID)
          ∧ r.Severity = m.Vulnerability.Severity
          ∧ r.FixedIn = stringsJoin m.Vulnerability.Fix.Versions (str ",") := by
  rw [ExtractVulns_ok u rt row out hne hok]
  refine ⟨_, rfl, ?_⟩
  intro r hr
  obtain ⟨hp, -⟩ := sorted_values rt (lazyID row) out.Matches
  obtain ⟨e, he, rfl⟩ := List.mem_map.1 (hp.mem_iff.1 hr)
  obtain ⟨l₁, m, l₂, hl, rfl, hlast⟩ := uniqueVulns_last _ _ e he
  refine ⟨l₁, m, l₂, hl, (candidate_lazyID_ID row m).symm, ?_, rfl, rfl⟩
  intro m' hm'
  have := hlast m' hm'
  rw [candidate_lazyID_ID] at this
  exact this

/-- Witness of C16: of the two findings of `libfoo`, the one that comes last in the report
gives the severity. -/
theorem ExtractVulns_last_wins_witness :
    (scenario (reportJSON [libfooJSON, libfooLowJSON])).RawGrypeJSON ≠ []
      ∧ exampleUnmarshal (scenario (reportJSON [libfooJSON, libfooLowJSON])).RawGrypeJSON
        = .ok { Matches := [libfoo, libfooLow] }
      ∧ (ExtractVulns exampleUnmarshal GoRuntime.std
          (scenario (reportJSON [libfooJSON, libfooLowJSON]))).vulns.map
            (List.map Vuln.Severity) = some [libfooLow.Vulnerability.Severity]
      ∧ ∃ vulns, (ExtractVulns exampleUnmarshal GoRuntime.std
          (scenario (reportJSON [libfooJSON, libfooLowJSON]))).vulns = some vulns
        ∧ ∀ r ∈ vulns, ∃ l₁ m l₂, [libfoo, libfooLow] = l₁ ++ m :: l₂
            ∧ (candidate (scenario (reportJSON [libfooJSON, libfooLowJSON])) m).ID = r.ID
            ∧ (∀ m' ∈ l₂,
                (candidate (scenario (reportJSON [libfooJSON, libfooLowJSON])) m').ID ≠ r.ID)
            ∧ r.Severity = m.Vulnerability.Severity
            ∧ r.FixedIn = stringsJoin m.Vulnerability.Fix.Versions (str ",") :=
  ⟨by decide, rfl, by decide,
    ExtractVulns_last_wins exampleUnmarshal GoRuntime.std
      (scenario (reportJSON [libfooJSON, libfooLowJSON])) { Matches := [libfoo, libfooLow] }
      (by decide) rfl⟩

/-! ## Independence of the runtime -/

theorem strict_of_sorted (s : List Vuln) (hn : (s.map Vuln.id).Nodup)
    (hs : s.Pairwise (fun a b => lessID b a = false)) :
    s.Pairwise (fun a b => a.id < b.id) := by
  rw [List.Nodup, List.pairwise_map] at hn
  refine (hs.and hn).imp ?_
  rintro a b ⟨h1, h2⟩
  simp only [lessID, decide_eq_false_iff_not, not_lt] at h1
  exact lt_of_le_of_ne h1 h2

/-- C17: the outcome of `ExtractVulns` is the same under any two runtimes, that is, for any
two iteration orders of the map and any two correct sorts; entries of the map with distinct
keys have distinct sort keys, and any two enumerations `l₁`, `l₂` of the values of the map,
sorted into `s₁` and `s₂` under the comparison `id(a) < id(b)`, give the same list. -/
theorem ExtractVulns_deterministic (u : Unmarshal) (rt₁ rt₂ : GoRuntime)
    (row : ImageScanSummary) (ms : List GrypeMatch) (l₁ l₂ s₁ s₂ : List Vuln) :
    ExtractVulns u rt₁ row = ExtractVulns u rt₂ row
      ∧ (∀ e₁ ∈ uniqueVulns row ms, ∀ e₂ ∈ uniqueVulns row ms,
          e₁.1 ≠ e₂.1 → e₁.2.id ≠ e₂.2.id)
      ∧ (l₁.Perm ((uniqueVulns row ms).map Prod.snd) →
          l₂.Perm ((uniqueVulns row ms).map Prod.snd) →
          s₁.Perm l₁ → s₂.Perm l₂ →
          s₁.Pairwise (fun a b => lessID b a = false) →
          s₂.Pairwise (fun a b => lessID b a = false) → s₁ = s₂) := by
  refine ⟨ExtractVulns_runtime u rt₁ rt₂ row, ?_, ?_⟩
  · intro e₁ h₁ e₂ h₂ hk hid
    obtain ⟨m₁, -, rfl⟩ := uniqueVulns_mem row ms e₁ h₁
    obtain ⟨m₂, -, rfl⟩ := uniqueVulns_mem row ms e₂ h₂
    apply hk
    show sha256Sum (candidate row m₁).id = sha256Sum (candidate row m₂).id
    rw [hid]
  · intro hl₁ hl₂ hp₁ hp₂ hs₁ hs₂
    have hn := uniqueVulns_nodup_id row ms
    have hn₁ : (s₁.map Vuln.id).Nodup := (((hp₁.trans hl₁).map Vuln.id).nodup_iff).2 hn
    have hn₂ : (s₂.map Vuln.id).Nodup := (((hp₂.trans hl₂).map Vuln.id).nodup_iff).2 hn
    exact eq_of_perm_of_strict (((hp₁.trans hl₁).trans hl₂.symm).trans hp₂.symm)
      (strict_of_sorted s₁ hn₁ hs₁) (strict_of_sorted s₂ hn₂ hs₂)

/-- Witness of C17: the values of the scenario's map, visited in the order of its entries and
in the reverse order, sort into the same list. -/
theorem ExtractVulns_deterministic_witness :
    GoRuntime.std.sortSlice lessID
        ((uniqueVulns (scenario []) [libfoo, libbar]).map Prod.snd)
      = GoRuntime.std.sortSlice lessID
        ((uniqueVulns (scenario []) [libfoo, libbar]).map Prod.snd).reverse :=
  (ExtractVulns_deterministic exampleUnmarshal GoRuntime.std GoRuntime.rev (scenario [])
    [libfoo, libbar]
    ((uniqueVulns (scenario []) [libfoo, libbar]).map Prod.snd)
    ((uniqueVulns (scenario []) [libfoo, libbar]).map Prod.snd).reverse
    (GoRuntime.std.sortSlice lessID ((uniqueVulns (scenario []) [libfoo, libbar]).map Prod.snd))
    (GoRuntime.std.sortSlice lessID
      ((uniqueVulns (scenario []) [libfoo, libbar]).map Prod.snd).reverse)).2.2
    (List.Perm.refl _) (List.reverse_perm _)
    (GoRuntime.std.sortSlice_perm _ _) (GoRuntime.std.sortSlice_perm _ _)
    (GoRuntime.std.sortSlice_sorted _ _ isLess_lessID)
    (GoRuntime.std.sortSlice_sorted _ _ isLess_lessID)

/-! ## The identity on the paths without a list -/

/-- C18: on a summary whose `RawGrypeJSON` is empty, `ExtractVulns` leaves the whole summary
unchanged; an `ID` that was unset is still unset after the call. -/
theorem ExtractVulns_empty_payload_frame (u : Unmarshal) (rt : GoRuntime)
    (row : ImageScanSummary) (h : row.RawGrypeJSON = []) :
    (ExtractVulns u rt row).row = row
      ∧ (row.ID = [] → (ExtractVulns u rt row).row.ID = []) := by
  rw [ExtractVulns_row, if_pos h]
  exact ⟨rfl, fun h => h⟩

/-- Witness of C18: the scenario's summary with an empty payload and no identity. -/
theorem ExtractVulns_empty_payload_frame_witness :
    (scenario []).RawGrypeJSON = []
      ∧ (scenario []).ID = []
      ∧ (ExtractVulns exampleUnmarshal GoRuntime.std (scenario [])).row = scenario []
      ∧ (ExtractVulns exampleUnmarshal GoRuntime.std (scenario [])).row.ID = [] :=
  have h := ExtractVulns_empty_payload_frame exampleUnmarshal GoRuntime.std (scenario []) rfl
  ⟨rfl, rfl, h.1, h.2 rfl⟩

/-- C19: on a summary with an unset `ID` and a non-empty payload that fails to decode,
`ExtractVulns` returns the error and the nil list, and the summary's `ID` is then the
derived scan identity, which is not empty. -/
theorem ExtractVulns_error_sets_ID (u : Unmarshal) (rt : GoRuntime) (row : ImageScanSummary)
    (e : JsonError) (hid : row.ID = []) (hne : row.RawGrypeJSON ≠ [])
    (herr : u row.RawGrypeJSON = .error e) :
    (ExtractVulns u rt row).err = some e
      ∧ (ExtractVulns u rt row).vulns = none
      ∧ (ExtractVulns u rt row).row.ID
        = sha256Sum (row.Image ++ str "--" ++ row.Scanner ++ str "--" ++ row.Time)
      ∧ (ExtractVulns u rt row).row.ID ≠ []
      ∧ (ExtractVulns u rt row).row.ID ≠ row.ID := by
  rw [ExtractVulns_error u rt row e hne herr]
  have h : (lazyID row).ID
      = sha256Sum (row.Image ++ str "--" ++ row.Scanner ++ str "--" ++ row.Time) := by
    rw [lazyID, if_pos hid, ← ImageScanSummary_id_eq]
    rfl
  refine ⟨rfl, rfl, h, ?_, ?_⟩
  · show (lazyID row).ID ≠ []
    rw [h]
    exact sha256Sum_ne_nil _
  · show (lazyID row).ID ≠ row.ID
    rw [h, hid]
    exact sha256Sum_ne_nil _

/-- Witness of C19: the scenario's summary with the payload `x`; after the failed call its
`ID` is the digest of `app:1--scannerX--2024-01-01T00:00:00Z`. -/
theorem ExtractVulns_error_sets_ID_witness :
    (scenario (str "x")).ID = []
      ∧ (scenario (str "x")).RawGrypeJSON ≠ []
      ∧ exampleUnmarshal (scenario (str "x")).RawGrypeJSON = .error { msg := "invalid character" }
      ∧ (ExtractVulns exampleUnmarshal GoRuntime.std (scenario (str "x"))).err
        = some { msg := "invalid character" }
      ∧ (ExtractVulns exampleUnmarshal GoRuntime.std (scenario (str "x"))).vulns = none
      ∧ (ExtractVulns exampleUnmarshal GoRuntime.std (scenario (str "x"))).row.ID
        = str "0de0acb0beb835ac530883a49d480069757fdd6976632d480359dc9d535315ac" :=
  have h := ExtractVulns_error_sets_ID exampleUnmarshal GoRuntime.std (scenario (str "x"))
    { msg := "invalid character" } rfl (by decide) (by rfl)
  ⟨rfl, by decide, by rfl, h.1, h.2.1, h.2.2.1.trans (by decide)⟩

/-! ## The delimiter inside a field -/

theorem delimiter_shift :
    str "a--b" ++ str "--" ++ str "c" = str "a" ++ str "--" ++ str "b--c" := by
  decide

/-- C20: the identity-input string is not injective in the fields: a summary with
`Image = "a--b"`, `Scanner = "c"` and one with `Image = "a"`, `Scanner = "b--c"` and the same
`Time` have the same identity-input string and get the same `ID` from `SetID`; so do a `Vuln`
with `Name = "a--b"`, `Installed = "c"` and one with `Name = "a"`, `Installed = "b--c"` and
the same other fields. -/
theorem id_not_injective (row : ImageScanSummary) (v : Vuln) :
    (str "a--b", str "c", row.Time) ≠ (str "a", str "b--c", row.Time)
      ∧ ({ row with Image := str "a--b", Scanner := str "c" }).id
        = ({ row with Image := str "a", Scanner := str "b--c" }).id
      ∧ ({ row with Image := str "a--b", Scanner := str "c" }).SetID.ID
        = ({ row with Image := str "a", Scanner := str "b--c" }).SetID.ID
      ∧ (str "a--b", str "c", v.Vulnerability, v.Type_, v.Time)
        ≠ (str "a", str "b--c", v.Vulnerability, v.Type_, v.Time)
      ∧ ({ v with Name := str "a--b", Installed := str "c" }).id
        = ({ v with Name := str "a", Installed := str "b--c" }).id
      ∧ ({ v with Name := str "a--b", Installed := str "c" }).SetID.ID
        = ({ v with Name := str "a", Installed := str "b--c" }).SetID.ID := by
  have hne : str "a--b" ≠ str "a" := by decide
  have h₁ : ({ row with Image := str "a--b", Scanner := str "c" }).id
      = ({ row with Image := str "a", Scanner := str "b--c" }).id := by
    rw [ImageScanSummary_id_eq, ImageScanSummary_id_eq]
    show str "a--b" ++ str "--" ++ str "c" ++ str "--" ++ row.Time
      = str "a" ++ str "--" ++ str "b--c" ++ str "--" ++ row.Time
    rw [delimiter_shift]
  have h₂ : ({ v with Name := str "a--b", Installed := str "c" }).id
      = ({ v with Name := str "a", Installed := str "b--c" }).id := by
    rw [Vuln_id_eq, Vuln_id_eq]
    show str "a--b" ++ str "--" ++ str "c" ++ str "--" ++ v.Vulnerability ++ str "--"
        ++ v.Type_ ++ str "--" ++ v.Time
      = str "a" ++ str "--" ++ str "b--c" ++ str "--" ++ v.Vulnerability ++ str "--"
        ++ v.Type_ ++ str "--" ++ v.Time
    rw [delimiter_shift]
  refine ⟨fun h => hne (Prod.mk.inj h).1, h₁, ?_, fun h => hne (Prod.mk.inj h).1, h₂, ?_⟩
  · show sha256Sum _ = sha256Sum _
    rw [h₁]
  · show sha256Sum _ = sha256Sum _
    rw [h₂]
